import Mathlib

/-!
Verification of the signstream gesture-recognition core.

The development shallowly embeds the geometric pose classifiers
(`GestureLogic`, the two `VectorEngine` variants), the temporal
stabilizers (`useStablePrediction`, the `GestureEngine` hysteresis state
machine, the App interpretation loop) and proves the spec's testable
properties about them.  Geometry is modelled over `ℝ` (square roots are
exact), discrete frame-loop state machines over `ℚ`/`ℕ` so that concrete
runs are decidable.
-/

namespace SignStream

/-- 3D point (source `Point3D` / `HandLandmark` / `Vector3`). -/
@[ext] structure Vec3 where
  x : ℝ
  y : ℝ
  z : ℝ

/-- `VectorMath.sub` / `VectorEngine.sub`: componentwise difference `a - b`. -/
def sub (a b : Vec3) : Vec3 := ⟨a.x - b.x, a.y - b.y, a.z - b.z⟩

/-- `VectorMath.dot`: dot product. -/
def dot (a b : Vec3) : ℝ := a.x * b.x + a.y * b.y + a.z * b.z

/-- `VectorMath.cross`: cross product. -/
def cross (a b : Vec3) : Vec3 :=
  ⟨a.y * b.z - a.z * b.y, a.z * b.x - a.x * b.z, a.x * b.y - a.y * b.x⟩

/-- Squared Euclidean norm (the argument of `Math.sqrt`/`Math.hypot`). -/
def normSq (v : Vec3) : ℝ := v.x ^ 2 + v.y ^ 2 + v.z ^ 2

/-- Magnitude `Math.hypot(v.x, v.y, v.z)` = `Math.sqrt(x*x + y*y + z*z)`. -/
noncomputable def mag (v : Vec3) : ℝ := Real.sqrt (normSq v)

/-- `VectorMath.normalize`: divides by the magnitude, with the JS idiom
`Math.hypot(...) || 1` replacing a zero magnitude by `1` (zero-safe). -/
noncomputable def normalize (v : Vec3) : Vec3 :=
  let m := mag v
  let m' := if m = 0 then 1 else m
  ⟨v.x / m', v.y / m', v.z / m'⟩

/-- `VectorMath.dist`: Euclidean distance between two points. -/
noncomputable def dist (a b : Vec3) : ℝ := mag (sub a b)

/-- Scalar multiple (modelling helper, used to state Bessel's inequality). -/
noncomputable def smul (c : ℝ) (v : Vec3) : Vec3 := ⟨c * v.x, c * v.y, c * v.z⟩

/-- The zero vector. -/
def vzero : Vec3 := ⟨0, 0, 0⟩

/-- A landmark list; valid input has at least 21 entries. -/
abbrev Landmarks := List Vec3

/-- Array access `lm[i]` (the sources only index after the `length < 21` guard). -/
def get (lm : Landmarks) (i : ℕ) : Vec3 := lm.getD i vzero

/-! ### `GestureLogic` (src/lib/GestureLogic.ts)

Rule-based recognizer.  Booleans are modelled as `Bool` via (classically
decidable) comparisons on `ℝ`. -/

section
attribute [local instance] Classical.propDecidable

namespace GestureLogic

/-- `isExtended(tipIdx, mcpIdx)` inside `getExtensions`. -/
noncomputable def isExtended (lm : Landmarks) (tipIdx mcpIdx : ℕ) : Bool :=
  if dist (get lm tipIdx) (get lm 0) > dist (get lm mcpIdx) (get lm 0) * 1.2
  then true else false

/-- `thumbExtended()` inside `getExtensions`. -/
noncomputable def thumbExtended (lm : Landmarks) : Bool :=
  if dist (get lm 4) (get lm 5) > dist (get lm 0) (get lm 5) * 0.7
  then true else false

/-- `GestureLogic.getExtensions`: per-finger extension flags
(thumb, index, middle, ring, pinky). -/
noncomputable def getExtensions (lm : Landmarks) :
    Bool × Bool × Bool × Bool × Bool :=
  (thumbExtended lm, isExtended lm 8 5, isExtended lm 12 9,
   isExtended lm 16 13, isExtended lm 20 17)

/-- `GestureLogic.isThumbOut` (returns `true` for A, `false` for S). -/
noncomputable def isThumbOut (lm : Landmarks) : Bool :=
  let thumbTip := get lm 4
  let indexMcp := get lm 5
  let middleMcp := get lm 9
  let pinkyMcp := get lm 17
  let wrist := get lm 0
  let indexPip := get lm 6
  let v1 := sub indexMcp wrist
  let v2 := sub pinkyMcp wrist
  let palmNormalNorm := normalize (cross v1 v2)
  let palmToThumb := sub thumbTip middleMcp
  let depthFromPalm := dot palmToThumb palmNormalNorm
  let palmWidthDist := dist pinkyMcp indexMcp
  let isDeepInFront := depthFromPalm > palmWidthDist * 0.6
  let isNearFingers := dist thumbTip indexPip < palmWidthDist * 0.8
  if isDeepInFront ∧ isNearFingers then false else true

/-- `GestureLogic.isThumbIndexTouching`. -/
noncomputable def isThumbIndexTouching (lm : Landmarks) : Bool :=
  if dist (get lm 4) (get lm 8) < dist (get lm 5) (get lm 9) * 1.8
  then true else false

/-- `GestureLogic.getFingerSpread`. -/
noncomputable def getFingerSpread (lm : Landmarks) : ℝ :=
  let tipDist := dist (get lm 8) (get lm 12)
  let mcpDist := dist (get lm 5) (get lm 9)
  if mcpDist > 0 then tipDist / mcpDist else 0

/-- `GestureLogic.analyze`: the full detection cascade.  Returns
`(match, score)`; `(none, 0)` both for short landmark lists and for
unrecognized configurations. -/
noncomputable def analyze (lm : Landmarks) : Option String × ℝ :=
  if lm.length < 21 then (none, 0) else
  let ext := getExtensions lm
  let extThumb := ext.1
  let extIndex := ext.2.1
  let extMiddle := ext.2.2.1
  let extRing := ext.2.2.2.1
  let extPinky := ext.2.2.2.2
  let spread := getFingerSpread lm
  let touching := isThumbIndexTouching lm
  let fingerCount :=
    [extIndex, extMiddle, extRing, extPinky].count true
  if touching = true ∧ extMiddle = true ∧ extRing = true ∧ extPinky = true then
    (some "F", 1)
  else if fingerCount = 4 then (some "B", 1)
  else if fingerCount = 3 ∧ extIndex = true ∧ extMiddle = true ∧
      extRing = true ∧ extPinky = false then (some "W", 1)
  else if fingerCount = 2 ∧ extIndex = true ∧ extMiddle = true ∧
      extRing = false ∧ extPinky = false then
    (if spread < 0.8 then (some "R", 1)
     else if spread > 1.5 then (some "V", 1)
     else (some "U", 1))
  else if fingerCount = 1 ∧ extPinky = true ∧ extRing = false ∧
      extMiddle = false ∧ extIndex = false then
    (if extThumb = true then (some "Y", 1) else (some "I", 1))
  else if fingerCount = 1 ∧ extIndex = true ∧ extMiddle = false then
    (if extThumb = true then (some "L", 1) else (some "D", 1))
  else if fingerCount = 0 then (some "A", 1)
  else (none, 0)

end GestureLogic

end

/-! ### The best-score selection loop shared by both `VectorEngine.matchPose`
variants: start from `(null, -1)`, replace on strict improvement. -/

/-- The `for (const [letter, pose] of Object.entries(CANONICAL_POSES))`
accumulation: keep the first entry attaining the running maximum. -/
noncomputable def matchFold {α : Type} (score : α → ℝ) (entries : List (String × α))
    (acc : Option String × ℝ) : Option String × ℝ :=
  entries.foldl
    (fun best e => if score e.2 > best.2 then (some e.1, score e.2) else best) acc

/-! ### `VectorEngine`, plain-cosine variant (src/unnamed/part_004)

Basis from wrist → middle MCP, palm normal from the two palm edges;
score = raw average cosine similarity in [-1, 1]. -/

namespace EngineV1

/-- `VectorEngine.computeHandBasis` (plain variant): Y from wrist to middle
MCP, Z the palm normal, X orthogonal, Y re-orthogonalized. -/
noncomputable def computeHandBasis (lm : Landmarks) : Vec3 × Vec3 × Vec3 :=
  let wrist := get lm 0
  let indexMcp := get lm 5
  let middleMcp := get lm 9
  let pinkyMcp := get lm 17
  let yAxis0 := normalize (sub middleMcp wrist)
  let p1 := sub indexMcp wrist
  let p2 := sub pinkyMcp wrist
  let zAxis := normalize (cross p1 p2)
  let xAxis := normalize (cross yAxis0 zAxis)
  let yAxis := cross zAxis xAxis
  (xAxis, yAxis, zAxis)

/-- One entry of `extractFeatures`: the normalized world finger vector
(MCP → TIP) expressed in the local basis. -/
noncomputable def featureOf (lm : Landmarks) (basis : Vec3 × Vec3 × Vec3)
    (startIdx endIdx : ℕ) : Vec3 :=
  let u := normalize (sub (get lm endIdx) (get lm startIdx))
  ⟨dot u basis.1, dot u basis.2.1, dot u basis.2.2⟩

/-- `VectorEngine.extractFeatures` over `FINGER_VECTORS`
(thumb 2→4, index 5→8, middle 9→12, ring 13→16, pinky 17→20). -/
noncomputable def extractFeatures (lm : Landmarks) (basis : Vec3 × Vec3 × Vec3) :
    List Vec3 :=
  [featureOf lm basis 2 4, featureOf lm basis 5 8, featureOf lm basis 9 12,
   featureOf lm basis 13 16, featureOf lm basis 17 20]

/-- `VectorEngine.calculateSimilarity` (plain variant): average of the five
per-finger dot products, in [-1, 1]. -/
noncomputable def calculateSimilarity (current target : List Vec3) : ℝ :=
  if current.length = target.length
  then (List.zipWith dot current target).sum / current.length
  else 0

/-- `CANONICAL_POSES` of the plain variant, in `Object.entries` order. -/
def CANONICAL_POSES : List (String × List Vec3) :=
  [("A", [⟨0.1, 0.9, 0⟩, ⟨0, -1, 0⟩, ⟨0, -1, 0⟩, ⟨0, -1, 0⟩, ⟨0, -1, 0⟩]),
   ("B", [⟨-0.8, 0.2, 0⟩, ⟨0, 1, 0⟩, ⟨0, 1, 0⟩, ⟨0, 1, 0⟩, ⟨0, 1, 0⟩]),
   ("C", [⟨0.5, 0.5, 0.7⟩, ⟨0, 0.5, 0.8⟩, ⟨0, 0.5, 0.8⟩, ⟨0, 0.5, 0.8⟩,
          ⟨0, 0.5, 0.8⟩]),
   ("D", [⟨0.5, -0.2, 0.8⟩, ⟨0, 1, 0⟩, ⟨0, 0.2, 0.9⟩, ⟨0, 0.2, 0.9⟩,
          ⟨0, 0.2, 0.9⟩]),
   ("L", [⟨0.9, 0.4, 0⟩, ⟨0.1, 0.9, 0⟩, ⟨0, -1, 0⟩, ⟨0, -1, 0⟩, ⟨0, -1, 0⟩]),
   ("O", [⟨0, -0.1, 0.9⟩, ⟨0, -0.1, 0.9⟩, ⟨0, -0.1, 0.9⟩, ⟨0, -0.1, 0.9⟩,
          ⟨0, -0.1, 0.9⟩]),
   ("V", [⟨-0.8, 0, 0⟩, ⟨-0.2, 0.9, 0⟩, ⟨0.2, 0.9, 0⟩, ⟨0, -1, 0⟩, ⟨0, -1, 0⟩]),
   ("W", [⟨-0.8, 0, 0⟩, ⟨-0.3, 0.9, 0⟩, ⟨0, 1, 0⟩, ⟨0.3, 0.9, 0⟩, ⟨0, -1, 0⟩]),
   ("Y", [⟨0.9, 0.2, 0⟩, ⟨0, -1, 0⟩, ⟨0, -1, 0⟩, ⟨0, -1, 0⟩, ⟨0.8, 0.5, 0⟩])]

/-- `VectorEngine.matchPose` (plain variant). -/
noncomputable def matchPose (lm : Landmarks) : Option String × ℝ :=
  if lm.length < 21 then (none, 0) else
  let basis := computeHandBasis lm
  let features := extractFeatures lm basis
  matchFold (fun pose => calculateSimilarity features pose)
    CANONICAL_POSES (none, -1)

end EngineV1

/-! ### `VectorEngine`, hybrid variant (src/lib/VectorEngine.ts)

Knuckle-bar basis; score = 40% curl match + 60% remapped cosine, in
[0, 1]. -/

namespace EngineV2

/-- `VectorEngine.computeHandBasis` (hybrid variant): X is the knuckle bar
index MCP → pinky MCP, Z the palm normal, Y = cross(Z, X). -/
noncomputable def computeHandBasis (lm : Landmarks) : Vec3 × Vec3 × Vec3 :=
  let wrist := get lm 0
  let indexMcp := get lm 5
  let pinkyMcp := get lm 17
  let xAxis := normalize (sub pinkyMcp indexMcp)
  let wristToIndex := sub indexMcp wrist
  let zAxis := normalize (cross xAxis wristToIndex)
  let yAxis := normalize (cross zAxis xAxis)
  (xAxis, yAxis, zAxis)

/-- `extractFeatures` (hybrid variant; same projection as the plain one). -/
noncomputable def extractFeatures (lm : Landmarks) (basis : Vec3 × Vec3 × Vec3) :
    List Vec3 :=
  [EngineV1.featureOf lm basis 2 4, EngineV1.featureOf lm basis 5 8,
   EngineV1.featureOf lm basis 9 12, EngineV1.featureOf lm basis 13 16,
   EngineV1.featureOf lm basis 17 20]

section
attribute [local instance] Classical.propDecidable

/-- `VectorEngine.calculateCurls`: per-finger extension flags via the
tip-to-wrist vs MCP-to-wrist ratio, threshold 1.1 (thumb uses MCP=2). -/
noncomputable def calculateCurls (lm : Landmarks) : List Bool :=
  let wrist := get lm 0
  let curlAt : ℕ → ℕ → Bool := fun mcpIdx tipIdx =>
    if dist (get lm tipIdx) wrist > dist (get lm mcpIdx) wrist * 1.1
    then true else false
  [curlAt 2 4, curlAt 5 8, curlAt 9 12, curlAt 13 16, curlAt 17 20]

end

/-- `VectorEngine.calculateCurlMatch`: fraction of the five fingers whose
extension flag equals the target's. -/
noncomputable def calculateCurlMatch (current target : List Bool) : ℝ :=
  (((List.range 5).filter
      (fun i => current.getD i false = target.getD i false)).length : ℝ) / 5

/-- `VectorEngine.calculateSimilarity` (hybrid variant): average cosine
remapped from [-1, 1] to [0, 1]. -/
noncomputable def calculateSimilarity (current target : List Vec3) : ℝ :=
  if current.length = target.length
  then ((List.zipWith dot current target).sum / current.length + 1) / 2
  else 0

/-- A canonical pose of the hybrid library: curl flags plus direction
vectors. -/
structure PoseDef where
  curls : List Bool
  vectors : List Vec3

/-- `CANONICAL_POSES` of the hybrid variant, in `Object.entries` order. -/
def CANONICAL_POSES : List (String × PoseDef) :=
  [("A", ⟨[true, false, false, false, false],
     [⟨0.5, 0.5, 0.5⟩, ⟨0, -0.5, 0.5⟩, ⟨0, -0.5, 0.5⟩, ⟨0, -0.5, 0.5⟩,
      ⟨0, -0.5, 0.5⟩]⟩),
   ("B", ⟨[false, true, true, true, true],
     [⟨-0.5, 0.3, 0.5⟩, ⟨-0.1, 0.9, 0.2⟩, ⟨0, 0.95, 0.2⟩, ⟨0.1, 0.9, 0.2⟩,
      ⟨0.2, 0.85, 0.2⟩]⟩),
   ("C", ⟨[true, true, true, true, true],
     [⟨0.5, 0.3, 0.7⟩, ⟨-0.1, 0.4, 0.8⟩, ⟨0, 0.4, 0.8⟩, ⟨0.1, 0.4, 0.8⟩,
      ⟨0.2, 0.4, 0.8⟩]⟩),
   ("D", ⟨[true, true, false, false, false],
     [⟨0.3, 0, 0.9⟩, ⟨0, 0.95, 0.2⟩, ⟨0, 0, 0.9⟩, ⟨0.1, 0, 0.9⟩,
      ⟨0.2, 0, 0.9⟩]⟩),
   ("L", ⟨[true, true, false, false, false],
     [⟨0.9, 0.3, 0.2⟩, ⟨0, 0.95, 0.2⟩, ⟨0, -0.3, 0.8⟩, ⟨0.1, -0.3, 0.8⟩,
      ⟨0.2, -0.3, 0.8⟩]⟩),
   ("O", ⟨[true, true, true, true, true],
     [⟨0.2, -0.2, 0.9⟩, ⟨-0.1, -0.2, 0.9⟩, ⟨0, -0.2, 0.9⟩, ⟨0.1, -0.2, 0.9⟩,
      ⟨0.2, -0.2, 0.9⟩]⟩),
   ("V", ⟨[false, true, true, false, false],
     [⟨-0.5, 0, 0.7⟩, ⟨-0.3, 0.85, 0.2⟩, ⟨0.3, 0.85, 0.2⟩, ⟨0.1, -0.3, 0.9⟩,
      ⟨0.2, -0.3, 0.9⟩]⟩),
   ("W", ⟨[false, true, true, true, false],
     [⟨-0.5, 0, 0.7⟩, ⟨-0.4, 0.8, 0.2⟩, ⟨0, 0.9, 0.2⟩, ⟨0.4, 0.8, 0.2⟩,
      ⟨0.3, -0.2, 0.9⟩]⟩),
   ("Y", ⟨[true, false, false, false, true],
     [⟨0.9, 0.3, 0.2⟩, ⟨0, -0.3, 0.9⟩, ⟨0.1, -0.3, 0.9⟩, ⟨0.2, -0.3, 0.9⟩,
      ⟨0.5, 0.7, 0.3⟩]⟩)]

/-- The hybrid per-pose score: `0.4 * curl match + 0.6 * vector score`. -/
noncomputable def scoreOf (features : List Vec3) (curls : List Bool)
    (pose : PoseDef) : ℝ :=
  calculateCurlMatch curls pose.curls * 0.4 +
    calculateSimilarity features pose.vectors * 0.6

/-- `VectorEngine.matchPose` (hybrid variant). -/
noncomputable def matchPose (lm : Landmarks) : Option String × ℝ :=
  if lm.length < 21 then (none, 0) else
  let basis := computeHandBasis lm
  let features := extractFeatures lm basis
  let currentCurls := calculateCurls lm
  matchFold (scoreOf features currentCurls) CANONICAL_POSES (none, -1)

end EngineV2

section
attribute [local instance] Classical.propDecidable

/-- `useHandTracking`'s acceptance rule (vector-engine variant):
`bestMatch: match.score > 0.6 ? match.letter : null`. -/
noncomputable def bestMatch (lm : Landmarks) : Option String :=
  let m := EngineV2.matchPose lm
  if m.2 > 0.6 then m.1 else none

end

/-! ### `GestureEngine` (src/lib/GestureEngine.ts)

Per-finger hysteresis state machine on the PIP angle, plus the thumb's
Over/Under/Extended/Side machine. -/

inductive FingerState where
  | Extended
  | Folded
  | Closed
deriving DecidableEq

inductive ThumbState where
  | Extended
  | Closed
  | Side
  | Over
  | Under
deriving DecidableEq

namespace GestureEngine

/-- `GestureEngine.calculateAngle`: angle at `b` between `a` and `c`, in
degrees (0–180). -/
noncomputable def calculateAngle (a b c : Vec3) : ℝ :=
  let v1 := sub a b
  let v2 := sub c b
  Real.arccos (dot v1 v2 / (mag v1 * mag v2)) * 180 / Real.pi

section
attribute [local instance] Classical.propDecidable

/-- The decision core of `GestureEngine.getFingerState`, as a function of
the measured quantities: the PIP angle (hysteresis: the threshold for
staying `Extended` is 140, for entering 155) and the secondary
tip/MCP-to-wrist distances distinguishing `Folded` from `Closed`. -/
noncomputable def fingerStateUpdate (lastState : FingerState)
    (pipAngle tipDist mcpDist : ℝ) : FingerState :=
  let extendThresh : ℝ := if lastState = FingerState.Extended then 140 else 155
  if pipAngle > extendThresh then FingerState.Extended
  else if tipDist > mcpDist * 1.1 then FingerState.Folded
  else FingerState.Closed

/-- `GestureEngine.getFingerState` for one finger given its landmark
indices `(mcp, pip, tip)` and the remembered state. -/
noncomputable def getFingerState (lm : Landmarks) (mcp pip tip : ℕ)
    (lastState : FingerState) : FingerState :=
  fingerStateUpdate lastState
    (calculateAngle (get lm mcp) (get lm pip) (get lm tip))
    (dist (get lm 0) (get lm tip))
    (dist (get lm 0) (get lm mcp))

/-- The decision core of `GestureEngine.getThumbState`, as a function of
the measured quantities.  Hysteresis: the `zDiff` threshold for the `Over`
test is 0.02 once `Over`, else -0.01; for `Under` it is -0.01 once
`Under`, else 0.02. -/
noncomputable def thumbStateUpdate (lastState : ThumbState)
    (zDiff palmSize distToRing distToIndex thumbAngle : ℝ) : ThumbState :=
  let overZThresh : ℝ := if lastState = ThumbState.Over then 0.02 else -0.01
  if distToRing < distToIndex * 1.3 ∧ distToRing < palmSize * 0.9 ∧
      zDiff < overZThresh then ThumbState.Over
  else
    let underZThresh : ℝ := if lastState = ThumbState.Under then -0.01 else 0.02
    if distToIndex < palmSize * 0.6 ∧ zDiff > underZThresh then ThumbState.Under
    else if thumbAngle > 150 then
      (if distToIndex > palmSize * 0.3 then ThumbState.Extended
       else ThumbState.Side)
    else ThumbState.Side

/-- Iterate `fingerStateUpdate` over a sequence of per-frame measurements
`(pipAngle, tipDist, mcpDist)`. -/
noncomputable def runFingerState (s : FingerState)
    (frames : List (ℝ × ℝ × ℝ)) : FingerState :=
  frames.foldl (fun st f => fingerStateUpdate st f.1 f.2.1 f.2.2) s

end

end GestureEngine

/-! ### `useStablePrediction` (src/hooks/useStablePrediction.ts)

Sliding-window majority-vote stabilizer. -/

namespace Stabilizer

/-- The frequency-counting fold state inside the `useEffect` body. -/
structure CountAcc where
  counts : String → ℕ
  maxCount : ℕ
  mostFrequent : Option String
  nullCount : ℕ

/-- One step of the `for (const pred of bufferRef.current)` loop. -/
def countStep (acc : CountAcc) (pred : Option String) : CountAcc :=
  match pred with
  | none => { acc with nullCount := acc.nullCount + 1 }
  | some p =>
      let c := acc.counts p + 1
      let counts' := fun l => if l = p then c else acc.counts l
      if acc.maxCount < c then
        { counts := counts', maxCount := c, mostFrequent := some p,
          nullCount := acc.nullCount }
      else { acc with counts := counts' }

/-- Count frequencies over the whole buffer. -/
def countBuffer (buf : List (Option String)) : CountAcc :=
  buf.foldl countStep ⟨fun _ => 0, 0, none, 0⟩

/-- Stabilizer state: the rolling buffer plus the current stable label. -/
structure StabState where
  buffer : List (Option String)
  stable : Option String

/-- The buffer after `push` and the `length > windowSize` trim (`shift`
removes the oldest entry). -/
def pushTrim (windowSize : ℕ) (buffer : List (Option String))
    (raw : Option String) : List (Option String) :=
  let b1 := buffer ++ [raw]
  if windowSize < b1.length then b1.tail else b1

/-- One frame of `useStablePrediction`: push, trim, count, and apply the
consensus rule (promote the most frequent label when its ratio meets the
threshold, else clear when nulls meet it, else retain). -/
def stabStep (windowSize : ℕ) (threshold : ℚ) (s : StabState)
    (raw : Option String) : StabState :=
  let buf := pushTrim windowSize s.buffer raw
  let acc := countBuffer buf
  let total : ℚ := buf.length
  let next :=
    if acc.mostFrequent.isSome = true ∧ threshold ≤ (acc.maxCount : ℚ) / total
    then acc.mostFrequent
    else if threshold ≤ (acc.nullCount : ℚ) / total then none
    else s.stable
  ⟨buf, next⟩

/-- Feed a whole sequence of raw predictions. -/
def runStab (windowSize : ℕ) (threshold : ℚ) (s : StabState)
    (raws : List (Option String)) : StabState :=
  raws.foldl (stabStep windowSize threshold) s

/-- What the counting fold has computed after processing `seen`:
`counts`/`nullCount` are the actual frequencies, `maxCount` bounds every
count and is attained by `mostFrequent` when one exists. -/
def CountInv (seen : List (Option String)) (acc : CountAcc) : Prop :=
  (∀ l, acc.counts l = seen.count (some l)) ∧
  acc.nullCount = seen.count none ∧
  (∀ l, acc.counts l ≤ acc.maxCount) ∧
  (∀ m, acc.mostFrequent = some m → acc.counts m = acc.maxCount) ∧
  (acc.mostFrequent = none → acc.maxCount = 0)

end Stabilizer

/-! ### The App interpretation loop (consecutive-frame debounce,
src/App.tsx variant with `lastFrameLetter`/`frameCount` refs) -/

namespace AppLoop

/-- `Math.round` on rationals (round half up). -/
def jsRound (q : ℚ) : ℤ := ⌊q + 1 / 2⌋

/-- The state carried across frames: the two stability refs plus the two
pieces of displayed state. -/
structure AppState where
  lastFrameLetter : Option String
  frameCount : ℕ
  detectedLetter : Option String
  liveAccuracy : ℤ

/-- One iteration of the main interpretation `useEffect`, given the frame's
`(detectedLetter, targetSimilarity)` from `analyzePose`. -/
def stepApp (s : AppState) (currentDetection : Option String)
    (targetSimilarity : ℚ) : AppState :=
  let last' := if currentDetection = s.lastFrameLetter
               then s.lastFrameLetter else currentDetection
  let fc' := if currentDetection = s.lastFrameLetter then s.frameCount + 1 else 0
  if 3 ≤ fc' ∧ currentDetection.isSome = true then
    { lastFrameLetter := last', frameCount := fc',
      detectedLetter := currentDetection,
      liveAccuracy := jsRound (targetSimilarity * 100) }
  else
    { lastFrameLetter := last', frameCount := fc',
      detectedLetter := if currentDetection.isSome = true
                        then s.detectedLetter else none,
      liveAccuracy := max 0 (s.liveAccuracy - 5) }

/-- Run the loop over a list of frames. -/
def runApp (s : AppState) (frames : List (Option String × ℚ)) : AppState :=
  frames.foldl (fun st f => stepApp st f.1 f.2) s

/-- The initial state (`useState(null)`, refs `null`/`0`, accuracy `0`). -/
def initState : AppState := ⟨none, 0, none, 0⟩

/-- The state after `k` frames of constant detection `"A"` with constant
raw target similarity 0.8 (the confidence-smoothing scenario). -/
def accSeq (k : ℕ) : AppState :=
  runApp initState (List.replicate k (some "A", 4/5))

end AppLoop

/-! ### Concrete landmark sets used to evaluate the matchers -/

/-- 21 landmarks all at the origin (a fully degenerate but valid frame). -/
def zeroLm : Landmarks := List.replicate 21 vzero

/-- A valid frame on which every plain-cosine pose score is negative.
The basis landmarks make the local frame the identity; every finger
vector is a unit vector with rational coordinates. -/
noncomputable def negLm : Landmarks :=
  [vzero,                                -- 0 wrist
   vzero,                                -- 1
   vzero,                                -- 2 thumb MCP
   vzero,                                -- 3
   ⟨3/5, 0, -4/5⟩,                       -- 4 thumb tip
   ⟨1, 1, 0⟩,                            -- 5 index MCP
   vzero, vzero,                         -- 6 7
   ⟨9/5, 2/5, 0⟩,                        -- 8 index tip
   ⟨0, 1, 0⟩,                            -- 9 middle MCP
   vzero, vzero,                         -- 10 11
   ⟨0, 8/5, -4/5⟩,                       -- 12 middle tip
   vzero,                                -- 13 ring MCP
   vzero, vzero,                         -- 14 15
   ⟨-4/5, 3/5, 0⟩,                       -- 16 ring tip
   ⟨-1, 1, 0⟩,                           -- 17 pinky MCP
   vzero, vzero,                         -- 18 19
   ⟨-5/3, 2/3, -2/3⟩]                    -- 20 pinky tip

/-- A valid, non-degenerate frame for the knuckle-bar basis. -/
def basisLm : Landmarks :=
  [vzero, vzero, vzero, vzero, vzero,
   ⟨1, 1, 0⟩,                            -- 5 index MCP
   vzero, vzero, vzero, vzero, vzero, vzero, vzero, vzero, vzero, vzero, vzero,
   ⟨-1, 1, 0⟩,                           -- 17 pinky MCP
   vzero, vzero, vzero]

/-- A frame in which the index finger is fully bent at the PIP joint
(angle 0) while its tip-to-wrist vs MCP-to-wrist ratio is exactly 1.35. -/
noncomputable def fingerLm : Landmarks :=
  [vzero, vzero, vzero, vzero, vzero,
   ⟨1, 0, 0⟩,                            -- 5 index MCP
   ⟨2, 0, 0⟩,                            -- 6 index PIP
   vzero,
   ⟨27/20, 0, 0⟩,                        -- 8 index tip
   vzero, vzero, vzero, vzero, vzero, vzero, vzero, vzero, vzero, vzero,
   vzero, vzero]

/-! ## Helper lemmas -/

/-! ### Basic facts about the vector math kernel -/

theorem normSq_nonneg (v : Vec3) : 0 ≤ normSq v := by
  unfold normSq; positivity

theorem mag_nonneg (v : Vec3) : 0 ≤ mag v := Real.sqrt_nonneg _

theorem sq_mag (v : Vec3) : mag v ^ 2 = normSq v :=
  Real.sq_sqrt (normSq_nonneg v)

theorem normSq_eq_zero_iff (v : Vec3) : normSq v = 0 ↔ v = vzero := by
  constructor
  · intro h
    simp only [normSq] at h
    have hx : v.x = 0 := by nlinarith [sq_nonneg v.x, sq_nonneg v.y, sq_nonneg v.z]
    have hy : v.y = 0 := by nlinarith [sq_nonneg v.x, sq_nonneg v.y, sq_nonneg v.z]
    have hz : v.z = 0 := by nlinarith [sq_nonneg v.x, sq_nonneg v.y, sq_nonneg v.z]
    cases v; simp_all [vzero]
  · rintro rfl; simp [normSq, vzero]

theorem mag_eq_zero_iff (v : Vec3) : mag v = 0 ↔ v = vzero := by
  rw [mag, Real.sqrt_eq_zero (normSq_nonneg v)]
  exact normSq_eq_zero_iff v

/-- Evaluate a magnitude whose radicand is a perfect square. -/
theorem mag_eval (v : Vec3) (r : ℝ) (hr : 0 ≤ r) (h : normSq v = r ^ 2) :
    mag v = r := by rw [mag, h, Real.sqrt_sq hr]

/-- Evaluate `normalize` at a vector of known positive magnitude. -/
theorem normalize_eval (v : Vec3) (r : ℝ) (hr : 0 < r) (h : normSq v = r ^ 2) :
    normalize v = ⟨v.x / r, v.y / r, v.z / r⟩ := by
  have hm : mag v = r := mag_eval v r hr.le h
  rw [normalize]
  simp only [hm, if_neg hr.ne']

theorem normalize_zero : normalize vzero = vzero := by
  have hm : mag vzero = 0 := (mag_eq_zero_iff _).2 rfl
  rw [normalize]
  simp [hm, vzero]

theorem dot_cross_left (a b : Vec3) : dot (cross a b) a = 0 := by
  simp only [dot, cross]; ring

theorem dot_cross_right (a b : Vec3) : dot (cross a b) b = 0 := by
  simp only [dot, cross]; ring

theorem dot_comm (a b : Vec3) : dot a b = dot b a := by
  simp only [dot]; ring

theorem dot_normalize_left (v w : Vec3) :
    dot (normalize v) w = dot v w / (if mag v = 0 then 1 else mag v) := by
  simp only [normalize, dot]
  ring

/-- Lagrange identity for the cross product. -/
theorem normSq_cross (a b : Vec3) :
    normSq (cross a b) = normSq a * normSq b - dot a b ^ 2 := by
  simp only [normSq, cross, dot]; ring

theorem normSq_normalize_of_ne_zero (v : Vec3) (hv : v ≠ vzero) :
    normSq (normalize v) = 1 := by
  have hm : mag v ≠ 0 := fun h => hv ((mag_eq_zero_iff v).1 h)
  have h2 : normSq v = mag v ^ 2 := (sq_mag v).symm
  rw [normalize]
  simp only [if_neg hm]
  have hcalc : normSq ⟨v.x / mag v, v.y / mag v, v.z / mag v⟩
      = normSq v / mag v ^ 2 := by
    simp only [normSq]; ring
  rw [hcalc, h2, div_self (pow_ne_zero 2 hm)]

theorem normSq_normalize (v : Vec3) :
    normSq (normalize v) = 0 ∨ normSq (normalize v) = 1 := by
  by_cases hv : v = vzero
  · left; subst hv; rw [normalize_zero]; simp [normSq, vzero]
  · right; exact normSq_normalize_of_ne_zero v hv

theorem normSq_normalize_le_one (v : Vec3) : normSq (normalize v) ≤ 1 := by
  rcases normSq_normalize v with h | h <;> rw [h] <;> norm_num

/-- Unit length of `normalize v` for non-zero `v` (the zero-safe branch is
not taken). -/
theorem mag_normalize_of_ne_zero (v : Vec3) (hv : v ≠ vzero) :
    mag (normalize v) = 1 := by
  rw [mag, normSq_normalize_of_ne_zero v hv, Real.sqrt_one]

/-- Cauchy–Schwarz in components (via the Lagrange identity). -/
theorem dot_sq_le (a b : Vec3) : dot a b ^ 2 ≤ normSq a * normSq b := by
  simp only [dot, normSq]
  nlinarith [sq_nonneg (a.x * b.y - a.y * b.x), sq_nonneg (a.x * b.z - a.z * b.x),
    sq_nonneg (a.y * b.z - a.z * b.y)]

theorem abs_dot_le_one (a b : Vec3) (ha : normSq a ≤ 1) (hb : normSq b ≤ 1) :
    -1 ≤ dot a b ∧ dot a b ≤ 1 := by
  have h := dot_sq_le a b
  have ha0 := normSq_nonneg a
  have hb0 := normSq_nonneg b
  refine ⟨?_, ?_⟩ <;> nlinarith [sq_nonneg (dot a b)]

/-! ### The best-score fold: the result carries the maximum, attained by
the first entry reaching it -/

theorem matchFold_spec {α : Type} (score : α → ℝ) :
    ∀ (entries : List (String × α)) (acc : Option String × ℝ),
      acc.2 ≤ (matchFold score entries acc).2 ∧
      (∀ e ∈ entries, score e.2 ≤ (matchFold score entries acc).2) ∧
      (matchFold score entries acc = acc ∨
        ∃ e ∈ entries, (matchFold score entries acc).1 = some e.1 ∧
          (matchFold score entries acc).2 = score e.2) := by
  intro entries
  induction entries with
  | nil => intro acc; simp [matchFold]
  | cons e es ih =>
      intro acc
      by_cases h : score e.2 > acc.2
      · have hstep : matchFold score (e :: es) acc
            = matchFold score es (some e.1, score e.2) := by
          simp [matchFold, h]
        obtain ⟨h1, h2, h3⟩ := ih (some e.1, score e.2)
        refine ⟨?_, ?_, ?_⟩
        · rw [hstep]; exact le_trans (le_of_lt h) h1
        · intro e' he'
          rcases List.mem_cons.1 he' with rfl | he'
          · rw [hstep]; exact h1
          · rw [hstep]; exact h2 e' he'
        · rw [hstep]
          rcases h3 with h3 | ⟨e', he', ha, hb⟩
          · right; exact ⟨e, List.mem_cons_self e es, by rw [h3], by rw [h3]⟩
          · right; exact ⟨e', List.mem_cons_of_mem e he', ha, hb⟩
      · have hstep : matchFold score (e :: es) acc = matchFold score es acc := by
          simp [matchFold, h]
        obtain ⟨h1, h2, h3⟩ := ih acc
        refine ⟨?_, ?_, ?_⟩
        · rw [hstep]; exact h1
        · intro e' he'
          rcases List.mem_cons.1 he' with rfl | he'
          · rw [hstep]; exact le_trans (le_of_not_lt h) h1
          · rw [hstep]; exact h2 e' he'
        · rw [hstep]
          rcases h3 with h3 | ⟨e', he', ha, hb⟩
          · left; exact h3
          · right; exact ⟨e', List.mem_cons_of_mem e he', ha, hb⟩

/-! ### The App loop while the raw label stays equal to `lastFrameLetter` -/

theorem runApp_same (l : String) (q : ℚ) :
    ∀ (k : ℕ) (s : AppLoop.AppState), s.lastFrameLetter = some l →
      (AppLoop.runApp s (List.replicate k (some l, q))).detectedLetter
        = if 3 ≤ s.frameCount + k ∧ 1 ≤ k then some l
          else s.detectedLetter := by
  intro k
  induction k with
  | zero =>
      intro s h
      simp [AppLoop.runApp]
  | succ k ih =>
      intro s h
      rw [List.replicate_succ]
      have hrun : AppLoop.runApp s ((some l, q) :: List.replicate k (some l, q))
          = AppLoop.runApp (AppLoop.stepApp s (some l) q)
              (List.replicate k (some l, q)) := rfl
      rw [hrun]
      by_cases h3 : 3 ≤ s.frameCount + 1
      · have hstep : AppLoop.stepApp s (some l) q
            = ⟨some l, s.frameCount + 1, some l,
               AppLoop.jsRound (q * 100)⟩ := by
          simp [AppLoop.stepApp, h, h3]
        rw [hstep, ih _ rfl]
        rw [ite_self]
        rw [if_pos ⟨by omega, by omega⟩]
      · have hstep : AppLoop.stepApp s (some l) q
            = ⟨some l, s.frameCount + 1, s.detectedLetter,
               max 0 (s.liveAccuracy - 5)⟩ := by
          simp [AppLoop.stepApp, h, h3]
        rw [hstep, ih _ rfl]
        by_cases hk : 3 ≤ s.frameCount + 1 + k ∧ 1 ≤ k
        · rw [if_pos hk, if_pos ⟨by omega, by omega⟩]
        · rw [if_neg hk, if_neg (by omega)]

/-! ### Single-step evaluations of the App loop -/

theorem stepApp_new (s : AppLoop.AppState) (l : String) (q : ℚ)
    (h : ¬(some l = s.lastFrameLetter)) :
    AppLoop.stepApp s (some l) q
      = ⟨some l, 0, s.detectedLetter, max 0 (s.liveAccuracy - 5)⟩ := by
  simp [AppLoop.stepApp, h]

theorem stepApp_same_small (s : AppLoop.AppState) (l : String) (q : ℚ)
    (h : some l = s.lastFrameLetter) (h3 : ¬(3 ≤ s.frameCount + 1)) :
    AppLoop.stepApp s (some l) q
      = ⟨some l, s.frameCount + 1, s.detectedLetter,
         max 0 (s.liveAccuracy - 5)⟩ := by
  simp [AppLoop.stepApp, ← h, h3]

theorem stepApp_same_big (s : AppLoop.AppState) (l : String) (q : ℚ)
    (h : some l = s.lastFrameLetter) (h3 : 3 ≤ s.frameCount + 1) :
    AppLoop.stepApp s (some l) q
      = ⟨some l, s.frameCount + 1, some l,
         AppLoop.jsRound (q * 100)⟩ := by
  simp [AppLoop.stepApp, ← h, h3]

theorem accSeq_succ (k : ℕ) :
    AppLoop.accSeq (k + 1)
      = AppLoop.stepApp (AppLoop.accSeq k) (some "A") (4/5) := by
  unfold AppLoop.accSeq
  rw [List.replicate_succ']
  simp [AppLoop.runApp, List.foldl_append]

/-! ### The stabilizer's counting fold maintains its invariant -/

theorem countStep_inv (seen : List (Option String)) (acc : Stabilizer.CountAcc)
    (p : Option String) (h : Stabilizer.CountInv seen acc) :
    Stabilizer.CountInv (seen ++ [p]) (Stabilizer.countStep acc p) := by
  obtain ⟨hc, hn, hmax, hmf, hnone⟩ := h
  cases p with
  | none =>
      refine ⟨?_, ?_, hmax, hmf, hnone⟩
      · intro l; simp [Stabilizer.countStep, hc l]
      · simp [Stabilizer.countStep, hn]
  | some p =>
      simp only [Stabilizer.countStep]
      by_cases hlt : acc.maxCount < acc.counts p + 1
      · rw [if_pos hlt]
        refine ⟨?_, ?_, ?_, ?_, ?_⟩
        · intro l
          by_cases hl : l = p
          · subst hl; simp [hc l]
          · simp [hl, hc l]
        · simp [hn]
        · intro l
          by_cases hl : l = p
          · subst hl; simp
          · simp only [if_neg hl]
            exact le_trans (hmax l) (by omega)
        · intro m hm
          injection hm with hm
          subst hm
          simp
        · intro hcontra
          exact Option.noConfusion hcontra
      · rw [if_neg hlt]
        refine ⟨?_, ?_, ?_, ?_, ?_⟩
        · intro l
          by_cases hl : l = p
          · subst hl; simp [hc l]
          · simp [hl, hc l]
        · simp [hn]
        · intro l
          by_cases hl : l = p
          · subst hl; simp only [eq_self_iff_true, if_true]; omega
          · simp only [if_neg hl]; exact hmax l
        · intro m hm
          have hm' := hmf m hm
          by_cases hl : m = p
          · subst hl; omega
          · simp only [if_neg hl]; exact hm'
        · intro hmfn
          exfalso
          have h0 := hnone hmfn
          omega

theorem countBuffer_inv (buf : List (Option String)) :
    Stabilizer.CountInv buf (Stabilizer.countBuffer buf) := by
  have hgen : ∀ (rest seen : List (Option String)) (acc : Stabilizer.CountAcc),
      Stabilizer.CountInv seen acc →
      Stabilizer.CountInv (seen ++ rest) (rest.foldl Stabilizer.countStep acc) := by
    intro rest
    induction rest with
    | nil => intro seen acc h; simpa using h
    | cons x xs ih =>
        intro seen acc h
        have h1 := countStep_inv seen acc x h
        have h2 := ih (seen ++ [x]) _ h1
        simpa using h2
  have hbase : Stabilizer.CountInv [] ⟨fun _ => 0, 0, none, 0⟩ :=
    ⟨fun l => by simp, by simp, fun l => le_refl 0,
     fun m hm => Option.noConfusion hm, fun _ => rfl⟩
  simpa using hgen buf [] _ hbase

/-! ### Bessel's inequality for the (possibly degenerate) hand bases,
and the resulting score bounds -/

theorem dot_vzero_left (t : Vec3) : dot vzero t = 0 := by
  simp [dot, vzero]

theorem dot_vzero_right (t : Vec3) : dot t vzero = 0 := by
  simp [dot, vzero]

theorem bessel_expand (u e1 e2 e3 : Vec3) :
    normSq (sub (sub (sub u (smul (dot u e1) e1)) (smul (dot u e2) e2))
      (smul (dot u e3) e3))
    = normSq u
      - 2 * dot u e1 ^ 2 - 2 * dot u e2 ^ 2 - 2 * dot u e3 ^ 2
      + dot u e1 ^ 2 * normSq e1 + dot u e2 ^ 2 * normSq e2
      + dot u e3 ^ 2 * normSq e3
      + 2 * dot u e1 * dot u e2 * dot e1 e2
      + 2 * dot u e1 * dot u e3 * dot e1 e3
      + 2 * dot u e2 * dot u e3 * dot e2 e3 := by
  simp only [normSq, sub, smul, dot]
  ring

/-- Bessel: the squared coordinates of `u` along three pairwise-orthogonal
unit-or-zero vectors are bounded by `‖u‖²`. -/
theorem bessel3 (u e1 e2 e3 : Vec3)
    (h1 : normSq e1 = 0 ∨ normSq e1 = 1) (h2 : normSq e2 = 0 ∨ normSq e2 = 1)
    (h3 : normSq e3 = 0 ∨ normSq e3 = 1)
    (o12 : dot e1 e2 = 0) (o13 : dot e1 e3 = 0) (o23 : dot e2 e3 = 0) :
    dot u e1 ^ 2 + dot u e2 ^ 2 + dot u e3 ^ 2 ≤ normSq u := by
  have key : ∀ e : Vec3, normSq e = 0 ∨ normSq e = 1 →
      dot u e ^ 2 * normSq e = dot u e ^ 2 := by
    intro e he
    rcases he with he | he
    · have hz : e = vzero := (normSq_eq_zero_iff e).1 he
      subst hz
      simp [dot_vzero_right, he]
    · rw [he, mul_one]
  have hnn := normSq_nonneg (sub (sub (sub u (smul (dot u e1) e1))
    (smul (dot u e2) e2)) (smul (dot u e3) e3))
  rw [bessel_expand, o12, o13, o23] at hnn
  have k1 := key e1 h1
  have k2 := key e2 h2
  have k3 := key e3 h3
  linarith

/-- Both hand-basis constructions yield three pairwise-orthogonal vectors
of squared norm 0 or 1, with no non-degeneracy assumption. -/
theorem basisV2_facts (lm : Landmarks) :
    ((normSq (EngineV2.computeHandBasis lm).1 = 0 ∨
      normSq (EngineV2.computeHandBasis lm).1 = 1) ∧
     (normSq (EngineV2.computeHandBasis lm).2.1 = 0 ∨
      normSq (EngineV2.computeHandBasis lm).2.1 = 1) ∧
     (normSq (EngineV2.computeHandBasis lm).2.2 = 0 ∨
      normSq (EngineV2.computeHandBasis lm).2.2 = 1)) ∧
    (dot (EngineV2.computeHandBasis lm).1 (EngineV2.computeHandBasis lm).2.1 = 0 ∧
     dot (EngineV2.computeHandBasis lm).1 (EngineV2.computeHandBasis lm).2.2 = 0 ∧
     dot (EngineV2.computeHandBasis lm).2.1
       (EngineV2.computeHandBasis lm).2.2 = 0) := by
  have hb : EngineV2.computeHandBasis lm =
      (normalize (sub (get lm 17) (get lm 5)),
       normalize (cross
         (normalize (cross (normalize (sub (get lm 17) (get lm 5)))
           (sub (get lm 5) (get lm 0))))
         (normalize (sub (get lm 17) (get lm 5)))),
       normalize (cross (normalize (sub (get lm 17) (get lm 5)))
         (sub (get lm 5) (get lm 0)))) := rfl
  rw [hb]
  set x := normalize (sub (get lm 17) (get lm 5))
  set z := normalize (cross x (sub (get lm 5) (get lm 0)))
  have hzx : dot z x = 0 := by
    rw [dot_normalize_left, dot_cross_left]
    simp
  have hyz : dot (normalize (cross z x)) z = 0 := by
    rw [dot_normalize_left, dot_cross_left]
    simp
  have hyx : dot (normalize (cross z x)) x = 0 := by
    rw [dot_normalize_left, dot_cross_right]
    simp
  exact ⟨⟨normSq_normalize _, normSq_normalize _, normSq_normalize _⟩,
    ⟨by rw [dot_comm]; exact hyx, by rw [dot_comm]; exact hzx, hyz⟩⟩

theorem basisV1_facts (lm : Landmarks) :
    ((normSq (EngineV1.computeHandBasis lm).1 = 0 ∨
      normSq (EngineV1.computeHandBasis lm).1 = 1) ∧
     (normSq (EngineV1.computeHandBasis lm).2.1 = 0 ∨
      normSq (EngineV1.computeHandBasis lm).2.1 = 1) ∧
     (normSq (EngineV1.computeHandBasis lm).2.2 = 0 ∨
      normSq (EngineV1.computeHandBasis lm).2.2 = 1)) ∧
    (dot (EngineV1.computeHandBasis lm).1 (EngineV1.computeHandBasis lm).2.1 = 0 ∧
     dot (EngineV1.computeHandBasis lm).1 (EngineV1.computeHandBasis lm).2.2 = 0 ∧
     dot (EngineV1.computeHandBasis lm).2.1
       (EngineV1.computeHandBasis lm).2.2 = 0) := by
  have hb : EngineV1.computeHandBasis lm =
      (normalize (cross (normalize (sub (get lm 9) (get lm 0)))
         (normalize (cross (sub (get lm 5) (get lm 0))
           (sub (get lm 17) (get lm 0))))),
       cross (normalize (cross (sub (get lm 5) (get lm 0))
           (sub (get lm 17) (get lm 0))))
         (normalize (cross (normalize (sub (get lm 9) (get lm 0)))
           (normalize (cross (sub (get lm 5) (get lm 0))
             (sub (get lm 17) (get lm 0)))))),
       normalize (cross (sub (get lm 5) (get lm 0))
         (sub (get lm 17) (get lm 0)))) := rfl
  rw [hb]
  set y0 := normalize (sub (get lm 9) (get lm 0))
  set z := normalize (cross (sub (get lm 5) (get lm 0))
    (sub (get lm 17) (get lm 0)))
  set x := normalize (cross y0 z) with hxdef
  have hxz : dot x z = 0 := by
    rw [hxdef, dot_normalize_left, dot_cross_right]
    simp
  have hy : normSq (cross z x) = normSq z * normSq x - dot z x ^ 2 :=
    normSq_cross z x
  have hzx : dot z x = 0 := by rw [dot_comm]; exact hxz
  refine ⟨⟨normSq_normalize _, ?_, normSq_normalize _⟩, ?_, hxz, ?_⟩
  · rw [hy, hzx]
    rcases normSq_normalize (cross y0 z) with h | h <;>
      rcases normSq_normalize (cross (sub (get lm 5) (get lm 0))
        (sub (get lm 17) (get lm 0))) with h' | h'
    all_goals rw [hxdef] at *
    all_goals rw [h, h']
    all_goals norm_num
  · rw [dot_comm]
    exact dot_cross_right z x
  · exact dot_cross_left z x

/-- The projected finger direction has squared norm at most 1, for any
basis with the above facts. -/
theorem featureOf_normSq_le_one (lm : Landmarks) (b : Vec3 × Vec3 × Vec3)
    (hb : ((normSq b.1 = 0 ∨ normSq b.1 = 1) ∧
           (normSq b.2.1 = 0 ∨ normSq b.2.1 = 1) ∧
           (normSq b.2.2 = 0 ∨ normSq b.2.2 = 1)) ∧
          (dot b.1 b.2.1 = 0 ∧ dot b.1 b.2.2 = 0 ∧ dot b.2.1 b.2.2 = 0))
    (i j : ℕ) : normSq (EngineV1.featureOf lm b i j) ≤ 1 := by
  obtain ⟨⟨h1, h2, h3⟩, o12, o13, o23⟩ := hb
  have hbes := bessel3 (normalize (sub (get lm j) (get lm i)))
    b.1 b.2.1 b.2.2 h1 h2 h3 o12 o13 o23
  have hu := normSq_normalize_le_one (sub (get lm j) (get lm i))
  show normSq ⟨dot (normalize (sub (get lm j) (get lm i))) b.1,
    dot (normalize (sub (get lm j) (get lm i))) b.2.1,
    dot (normalize (sub (get lm j) (get lm i))) b.2.2⟩ ≤ 1
  simp only [normSq] at hbes hu ⊢
  linarith

/-- Sum of pairwise dot products of vectors with `‖·‖² ≤ 1` is bounded by
the number of summands. -/
theorem zip_dot_sum_bound :
    ∀ (fs ts : List Vec3), (∀ f ∈ fs, normSq f ≤ 1) →
      (∀ t ∈ ts, normSq t ≤ 1) →
      -((List.zipWith dot fs ts).length : ℝ) ≤ (List.zipWith dot fs ts).sum ∧
      (List.zipWith dot fs ts).sum ≤ ((List.zipWith dot fs ts).length : ℝ) := by
  intro fs
  induction fs with
  | nil => intro ts _ _; simp
  | cons f fs ih =>
      intro ts hf ht
      cases ts with
      | nil => simp
      | cons t ts =>
          have hd := abs_dot_le_one f t (hf f (by simp)) (ht t (by simp))
          have hrec := ih ts (fun f' hf' => hf f' (by simp [hf']))
            (fun t' ht' => ht t' (by simp [ht']))
          simp only [List.zipWith, List.sum_cons, List.length_cons]
          push_cast
          constructor <;> linarith [hrec.1, hrec.2, hd.1, hd.2]

theorem simV1_bound (fs ts : List Vec3) (hf : ∀ f ∈ fs, normSq f ≤ 1)
    (ht : ∀ t ∈ ts, normSq t ≤ 1) :
    -1 ≤ EngineV1.calculateSimilarity fs ts ∧
    EngineV1.calculateSimilarity fs ts ≤ 1 := by
  unfold EngineV1.calculateSimilarity
  by_cases hlen : fs.length = ts.length
  · rw [if_pos hlen]
    obtain ⟨hlo, hhi⟩ := zip_dot_sum_bound fs ts hf ht
    have hzl : (List.zipWith dot fs ts).length = fs.length := by
      rw [List.length_zipWith, hlen, min_self]
    rw [hzl] at hlo hhi
    rcases Nat.eq_zero_or_pos fs.length with h0 | hpos
    · rw [h0]
      norm_num
    · have hposR : (0 : ℝ) < (fs.length : ℝ) := by exact_mod_cast hpos
      constructor
      · rw [le_div_iff hposR]
        linarith
      · rw [div_le_one hposR]
        linarith
  · rw [if_neg hlen]
    norm_num

theorem simV2_bound (fs ts : List Vec3) (hf : ∀ f ∈ fs, normSq f ≤ 1)
    (ht : ∀ t ∈ ts, normSq t ≤ 1) :
    0 ≤ EngineV2.calculateSimilarity fs ts ∧
    EngineV2.calculateSimilarity fs ts ≤ 1 := by
  have h1 := simV1_bound fs ts hf ht
  unfold EngineV1.calculateSimilarity at h1
  unfold EngineV2.calculateSimilarity
  by_cases hlen : fs.length = ts.length
  · rw [if_pos hlen]
    rw [if_pos hlen] at h1
    constructor <;> linarith [h1.1, h1.2]
  · rw [if_neg hlen]
    norm_num

theorem curlMatch_bound (c t : List Bool) :
    0 ≤ EngineV2.calculateCurlMatch c t ∧
    EngineV2.calculateCurlMatch c t ≤ 1 := by
  unfold EngineV2.calculateCurlMatch
  have hle : ((List.range 5).filter
      (fun i => c.getD i false = t.getD i false)).length ≤ 5 := by
    calc ((List.range 5).filter _).length ≤ (List.range 5).length :=
          List.length_filter_le _ _
      _ = 5 := List.length_range 5
  constructor
  · positivity
  · rw [div_le_one (by norm_num : (0:ℝ) < 5)]
    exact_mod_cast hle

theorem scoreOfV2_bound (feats : List Vec3) (curls : List Bool)
    (p : EngineV2.PoseDef)
    (hsim : 0 ≤ EngineV2.calculateSimilarity feats p.vectors ∧
            EngineV2.calculateSimilarity feats p.vectors ≤ 1) :
    0 ≤ EngineV2.scoreOf feats curls p ∧
    EngineV2.scoreOf feats curls p ≤ 1 := by
  obtain ⟨h1, h2⟩ := hsim
  obtain ⟨h3, h4⟩ := curlMatch_bound curls p.curls
  unfold EngineV2.scoreOf
  constructor <;> nlinarith

theorem featuresV2_bounded (lm : Landmarks) :
    ∀ f ∈ EngineV2.extractFeatures lm (EngineV2.computeHandBasis lm),
      normSq f ≤ 1 := by
  intro f hfm
  have hb := basisV2_facts lm
  simp only [EngineV2.extractFeatures, List.mem_cons, List.not_mem_nil,
    or_false] at hfm
  rcases hfm with rfl | rfl | rfl | rfl | rfl <;>
    exact featureOf_normSq_le_one lm _ hb _ _

theorem featuresV1_bounded (lm : Landmarks) :
    ∀ f ∈ EngineV1.extractFeatures lm (EngineV1.computeHandBasis lm),
      normSq f ≤ 1 := by
  intro f hfm
  have hb := basisV1_facts lm
  simp only [EngineV1.extractFeatures, List.mem_cons, List.not_mem_nil,
    or_false] at hfm
  rcases hfm with rfl | rfl | rfl | rfl | rfl <;>
    exact featureOf_normSq_le_one lm _ hb _ _

theorem targetsV2_bounded :
    ∀ e ∈ EngineV2.CANONICAL_POSES, ∀ t ∈ e.2.vectors, normSq t ≤ 1 := by
  intro e he
  fin_cases he <;> (intro t ht; fin_cases ht <;> norm_num [normSq])

theorem targetsV1_bounded :
    ∀ e ∈ EngineV1.CANONICAL_POSES, ∀ t ∈ e.2, normSq t ≤ 1 := by
  intro e he
  fin_cases he <;> (intro t ht; fin_cases ht <;> norm_num [normSq])

/-! ### Evaluating the hybrid matcher on the all-zero frame -/

theorem get_zeroLm (i : ℕ) : get zeroLm i = vzero := by
  unfold get zeroLm
  have h : ∀ (n i : ℕ), (List.replicate n vzero).getD i vzero = vzero := by
    intro n
    induction n with
    | zero => intro i; cases i <;> rfl
    | succ n ih =>
        intro i
        cases i with
        | zero => rfl
        | succ j => exact ih j
  exact h 21 i

theorem sub_vzero_vzero : sub vzero vzero = vzero := by
  norm_num [sub, vzero]

theorem cross_vzero_vzero : cross vzero vzero = vzero := by
  norm_num [cross, vzero]

theorem dist_vzero_vzero : dist vzero vzero = 0 := by
  rw [dist, sub_vzero_vzero, mag,
    show normSq vzero = 0 from by norm_num [normSq, vzero], Real.sqrt_zero]

theorem basisV2_zero :
    EngineV2.computeHandBasis zeroLm = (vzero, vzero, vzero) := by
  have hb0 : EngineV2.computeHandBasis zeroLm =
      (normalize (sub (get zeroLm 17) (get zeroLm 5)),
       normalize (cross
         (normalize (cross (normalize (sub (get zeroLm 17) (get zeroLm 5)))
           (sub (get zeroLm 5) (get zeroLm 0))))
         (normalize (sub (get zeroLm 17) (get zeroLm 5)))),
       normalize (cross (normalize (sub (get zeroLm 17) (get zeroLm 5)))
         (sub (get zeroLm 5) (get zeroLm 0)))) := rfl
  rw [hb0]
  simp only [get_zeroLm]
  rw [sub_vzero_vzero, normalize_zero, cross_vzero_vzero, normalize_zero,
    cross_vzero_vzero, normalize_zero]

theorem featuresV2_zero :
    EngineV2.extractFeatures zeroLm (EngineV2.computeHandBasis zeroLm)
      = [vzero, vzero, vzero, vzero, vzero] := by
  rw [basisV2_zero]
  simp only [EngineV2.extractFeatures, EngineV1.featureOf, get_zeroLm]
  rw [sub_vzero_vzero, normalize_zero]
  simp [dot, vzero]

theorem curlsV2_zero :
    EngineV2.calculateCurls zeroLm = [false, false, false, false, false] := by
  simp only [EngineV2.calculateCurls, get_zeroLm]
  rw [dist_vzero_vzero]
  norm_num

set_option maxHeartbeats 2000000 in
theorem matchPoseV2_zero :
    EngineV2.matchPose zeroLm = (some "A", 31/50) := by
  simp only [EngineV2.matchPose]
  rw [if_neg (show ¬(zeroLm.length < 21) by simp [zeroLm])]
  rw [featuresV2_zero, curlsV2_zero]
  have hsim : ∀ t1 t2 t3 t4 t5 : Vec3,
      EngineV2.calculateSimilarity [vzero, vzero, vzero, vzero, vzero]
        [t1, t2, t3, t4, t5] = 1/2 := by
    intro t1 t2 t3 t4 t5
    simp [EngineV2.calculateSimilarity, dot_vzero_left]
  have hcmA : EngineV2.calculateCurlMatch [false, false, false, false, false]
      [true, false, false, false, false] = 4/5 := by
    unfold EngineV2.calculateCurlMatch
    rw [show ((List.range 5).filter
      (fun i => [false, false, false, false, false].getD i false
        = [true, false, false, false, false].getD i false)).length = 4
      from by decide]
    norm_num
  have hcmB : EngineV2.calculateCurlMatch [false, false, false, false, false]
      [false, true, true, true, true] = 1/5 := by
    unfold EngineV2.calculateCurlMatch
    rw [show ((List.range 5).filter
      (fun i => [false, false, false, false, false].getD i false
        = [false, true, true, true, true].getD i false)).length = 1
      from by decide]
    norm_num
  have hcmC : EngineV2.calculateCurlMatch [false, false, false, false, false]
      [true, true, true, true, true] = 0 := by
    unfold EngineV2.calculateCurlMatch
    rw [show ((List.range 5).filter
      (fun i => [false, false, false, false, false].getD i false
        = [true, true, true, true, true].getD i false)).length = 0
      from by decide]
    norm_num
  have hcmD : EngineV2.calculateCurlMatch [false, false, false, false, false]
      [true, true, false, false, false] = 3/5 := by
    unfold EngineV2.calculateCurlMatch
    rw [show ((List.range 5).filter
      (fun i => [false, false, false, false, false].getD i false
        = [true, true, false, false, false].getD i false)).length = 3
      from by decide]
    norm_num
  have hcmV : EngineV2.calculateCurlMatch [false, false, false, false, false]
      [false, true, true, false, false] = 3/5 := by
    unfold EngineV2.calculateCurlMatch
    rw [show ((List.range 5).filter
      (fun i => [false, false, false, false, false].getD i false
        = [false, true, true, false, false].getD i false)).length = 3
      from by decide]
    norm_num
  have hcmW : EngineV2.calculateCurlMatch [false, false, false, false, false]
      [false, true, true, true, false] = 2/5 := by
    unfold EngineV2.calculateCurlMatch
    rw [show ((List.range 5).filter
      (fun i => [false, false, false, false, false].getD i false
        = [false, true, true, true, false].getD i false)).length = 2
      from by decide]
    norm_num
  have hcmY : EngineV2.calculateCurlMatch [false, false, false, false, false]
      [true, false, false, false, true] = 3/5 := by
    unfold EngineV2.calculateCurlMatch
    rw [show ((List.range 5).filter
      (fun i => [false, false, false, false, false].getD i false
        = [true, false, false, false, true].getD i false)).length = 3
      from by decide]
    norm_num
  simp only [EngineV2.CANONICAL_POSES, matchFold, List.foldl, EngineV2.scoreOf]
  rw [hsim, hsim, hsim, hsim, hsim, hsim, hsim, hsim, hsim]
  simp only [hcmA, hcmB, hcmC, hcmD, hcmV, hcmW, hcmY]
  norm_num

theorem bestMatch_zero : bestMatch zeroLm = some "A" := by
  unfold bestMatch
  rw [matchPoseV2_zero]
  norm_num

/-! ## Claim theorems -/

/-- C1: for every input landmark list with fewer than 21 points, the pose
matcher returns a null label and confidence 0 — in `GestureLogic.analyze`
and in `VectorEngine.matchPose` in both variants; each is a total function
(no exception, no truncated result). -/
theorem C1_short_input_rejected (lm : Landmarks) (h : lm.length < 21) :
    GestureLogic.analyze lm = (none, 0) ∧
    EngineV1.matchPose lm = (none, 0) ∧
    EngineV2.matchPose lm = (none, 0) := by
  refine ⟨?_, ?_, ?_⟩
  · rw [GestureLogic.analyze]; simp [h]
  · rw [EngineV1.matchPose]; simp [h]
  · rw [EngineV2.matchPose]; simp [h]

/-- Witness for C1 at the empty landmark list. -/
theorem C1_short_input_rejected_witness :
    ([] : Landmarks).length < 21 ∧
    GestureLogic.analyze [] = (none, 0) ∧
    EngineV1.matchPose [] = (none, 0) ∧
    EngineV2.matchPose [] = (none, 0) := by
  have h : ([] : Landmarks).length < 21 := by norm_num
  obtain ⟨h1, h2, h3⟩ := C1_short_input_rejected [] h
  exact ⟨h, h1, h2, h3⟩

/-- C8: `normalize` applied to a non-zero vector returns a vector of
magnitude exactly 1; applied to the zero vector it divides by 1 instead of
0 (no NaN in the real-number model: the function is total) and returns the
zero vector unchanged. -/
theorem C8_normalize_zero_safe :
    (∀ v : Vec3, v ≠ vzero → mag (normalize v) = 1) ∧
    normalize vzero = vzero :=
  ⟨mag_normalize_of_ne_zero, normalize_zero⟩

/-- Witness for C8 at the non-zero vector `(3, 4, 0)`. -/
theorem C8_normalize_zero_safe_witness :
    (⟨3, 4, 0⟩ : Vec3) ≠ vzero ∧ mag (normalize ⟨3, 4, 0⟩) = 1 := by
  have hne : (⟨3, 4, 0⟩ : Vec3) ≠ vzero := by
    intro h
    have hx := congrArg Vec3.x h
    simp only [vzero] at hx
    norm_num at hx
  exact ⟨hne, C8_normalize_zero_safe.1 _ hne⟩

/-- The tripod built from a knuckle bar and a palm-plane vector is
orthonormal as soon as the two normalizations are fed non-zero input. -/
theorem tripodOrthonormal (bar w : Vec3) (h1 : bar ≠ vzero)
    (h2 : cross (normalize bar) w ≠ vzero) :
    (mag (normalize bar) = 1 ∧
     mag (normalize (cross (normalize (cross (normalize bar) w))
        (normalize bar))) = 1 ∧
     mag (normalize (cross (normalize bar) w)) = 1) ∧
    (dot (normalize bar)
        (normalize (cross (normalize (cross (normalize bar) w))
          (normalize bar))) = 0 ∧
     dot (normalize bar) (normalize (cross (normalize bar) w)) = 0 ∧
     dot (normalize (cross (normalize (cross (normalize bar) w))
        (normalize bar)))
       (normalize (cross (normalize bar) w)) = 0) := by
  set x := normalize bar with hxdef
  set z := normalize (cross x w) with hzdef
  have hx1 : mag x = 1 := mag_normalize_of_ne_zero bar h1
  have hx2 : normSq x = 1 := normSq_normalize_of_ne_zero bar h1
  have hz1 : mag z = 1 := mag_normalize_of_ne_zero _ h2
  have hz2 : normSq z = 1 := normSq_normalize_of_ne_zero _ h2
  have hzx : dot z x = 0 := by
    rw [hzdef, dot_normalize_left, dot_cross_left]
    simp
  have hczx : cross z x ≠ vzero := by
    intro hc
    have h0 : normSq (cross z x) = 0 := by rw [hc]; simp [normSq, vzero]
    rw [normSq_cross, hz2, hx2, hzx] at h0
    norm_num at h0
  have hy1 : mag (normalize (cross z x)) = 1 := mag_normalize_of_ne_zero _ hczx
  have hyz : dot (normalize (cross z x)) z = 0 := by
    rw [dot_normalize_left, dot_cross_left]
    simp
  have hyx : dot (normalize (cross z x)) x = 0 := by
    rw [dot_normalize_left, dot_cross_right]
    simp
  exact ⟨⟨hx1, hy1, hz1⟩,
    ⟨by rw [dot_comm]; exact hyx, by rw [dot_comm]; exact hzx, hyz⟩⟩

/-- C7: for every valid, non-degenerate landmark set (the knuckle bar
pinkyMCP − indexMCP is non-zero and indexMCP − wrist is not parallel to
it), the Hand Basis computed by the knuckle-bar algorithm consists of
three unit-length, pairwise-orthogonal vectors. -/
theorem C7_basis_orthonormal (lm : Landmarks)
    (h1 : sub (get lm 17) (get lm 5) ≠ vzero)
    (h2 : cross (normalize (sub (get lm 17) (get lm 5)))
        (sub (get lm 5) (get lm 0)) ≠ vzero) :
    (mag (EngineV2.computeHandBasis lm).1 = 1 ∧
     mag (EngineV2.computeHandBasis lm).2.1 = 1 ∧
     mag (EngineV2.computeHandBasis lm).2.2 = 1) ∧
    (dot (EngineV2.computeHandBasis lm).1 (EngineV2.computeHandBasis lm).2.1 = 0 ∧
     dot (EngineV2.computeHandBasis lm).1 (EngineV2.computeHandBasis lm).2.2 = 0 ∧
     dot (EngineV2.computeHandBasis lm).2.1
       (EngineV2.computeHandBasis lm).2.2 = 0) := by
  have hb : EngineV2.computeHandBasis lm =
      (normalize (sub (get lm 17) (get lm 5)),
       normalize (cross
         (normalize (cross (normalize (sub (get lm 17) (get lm 5)))
           (sub (get lm 5) (get lm 0))))
         (normalize (sub (get lm 17) (get lm 5)))),
       normalize (cross (normalize (sub (get lm 17) (get lm 5)))
         (sub (get lm 5) (get lm 0)))) := rfl
  rw [hb]
  exact tripodOrthonormal _ _ h1 h2

/-- Witness for C7 at the concrete non-degenerate frame `basisLm`. -/
theorem C7_basis_orthonormal_witness :
    (sub (get basisLm 17) (get basisLm 5) ≠ vzero ∧
     cross (normalize (sub (get basisLm 17) (get basisLm 5)))
       (sub (get basisLm 5) (get basisLm 0)) ≠ vzero) ∧
    ((mag (EngineV2.computeHandBasis basisLm).1 = 1 ∧
      mag (EngineV2.computeHandBasis basisLm).2.1 = 1 ∧
      mag (EngineV2.computeHandBasis basisLm).2.2 = 1) ∧
     (dot (EngineV2.computeHandBasis basisLm).1
        (EngineV2.computeHandBasis basisLm).2.1 = 0 ∧
      dot (EngineV2.computeHandBasis basisLm).1
        (EngineV2.computeHandBasis basisLm).2.2 = 0 ∧
      dot (EngineV2.computeHandBasis basisLm).2.1
        (EngineV2.computeHandBasis basisLm).2.2 = 0)) := by
  have hget17 : get basisLm 17 = ⟨-1, 1, 0⟩ := rfl
  have hget5 : get basisLm 5 = ⟨1, 1, 0⟩ := rfl
  have hget0 : get basisLm 0 = vzero := rfl
  have hbar : sub (get basisLm 17) (get basisLm 5) = ⟨-2, 0, 0⟩ := by
    rw [hget17, hget5]; simp [sub]; norm_num
  have h1 : sub (get basisLm 17) (get basisLm 5) ≠ vzero := by
    rw [hbar]
    intro h
    have hx := congrArg Vec3.x h
    simp only [vzero] at hx
    norm_num at hx
  have hnbar : normalize (sub (get basisLm 17) (get basisLm 5)) = ⟨-1, 0, 0⟩ := by
    rw [hbar, normalize_eval ⟨-2, 0, 0⟩ 2 (by norm_num) (by simp [normSq])]
    norm_num
  have hw : sub (get basisLm 5) (get basisLm 0) = ⟨1, 1, 0⟩ := by
    rw [hget5, hget0]; simp [sub, vzero]
  have hcrossval : cross (normalize (sub (get basisLm 17) (get basisLm 5)))
      (sub (get basisLm 5) (get basisLm 0)) = ⟨0, 0, -1⟩ := by
    rw [hnbar, hw]; simp [cross]
  have h2 : cross (normalize (sub (get basisLm 17) (get basisLm 5)))
      (sub (get basisLm 5) (get basisLm 0)) ≠ vzero := by
    rw [hcrossval]
    intro h
    have hz := congrArg Vec3.z h
    simp only [vzero] at hz
    norm_num at hz
  exact ⟨⟨h1, h2⟩, C7_basis_orthonormal basisLm h1 h2⟩

/-! ### C2: acceptance threshold and argmax reporting -/

/-- C2: the pipeline's reported label comes from the pose with the
highest score — whenever `bestMatch` reports a letter it is the letter
`matchPose` selected, its score is the maximum over the library and it
exceeds the acceptance threshold — and whenever the maximum score is
below 0.6 the reported label is null. -/
theorem C2_acceptance_threshold :
    (∀ lm : Landmarks,
      (EngineV2.matchPose lm).2 < 0.6 → bestMatch lm = none) ∧
    (∀ (lm : Landmarks) (l : String), bestMatch lm = some l →
      (EngineV2.matchPose lm).1 = some l ∧
      0.6 < (EngineV2.matchPose lm).2 ∧
      (∀ e ∈ EngineV2.CANONICAL_POSES,
        EngineV2.scoreOf
          (EngineV2.extractFeatures lm (EngineV2.computeHandBasis lm))
          (EngineV2.calculateCurls lm) e.2 ≤ (EngineV2.matchPose lm).2) ∧
      (∃ e ∈ EngineV2.CANONICAL_POSES, e.1 = l ∧
        EngineV2.scoreOf
          (EngineV2.extractFeatures lm (EngineV2.computeHandBasis lm))
          (EngineV2.calculateCurls lm) e.2 = (EngineV2.matchPose lm).2)) := by
  constructor
  · intro lm h
    unfold bestMatch
    rw [if_neg (not_lt.mpr (le_of_lt h))]
  · intro lm l h
    unfold bestMatch at h
    by_cases hc : (EngineV2.matchPose lm).2 > 0.6
    · rw [if_pos hc] at h
      by_cases h21 : lm.length < 21
      · exfalso
        have hz : EngineV2.matchPose lm = (none, 0) := by
          simp only [EngineV2.matchPose]
          rw [if_pos h21]
        rw [hz] at h
        exact Option.noConfusion h
      · have heq : EngineV2.matchPose lm
            = matchFold (EngineV2.scoreOf
                (EngineV2.extractFeatures lm (EngineV2.computeHandBasis lm))
                (EngineV2.calculateCurls lm))
              EngineV2.CANONICAL_POSES (none, -1) := by
          simp only [EngineV2.matchPose]
          rw [if_neg h21]
        obtain ⟨hacc, hall, hatt⟩ := matchFold_spec
          (EngineV2.scoreOf
            (EngineV2.extractFeatures lm (EngineV2.computeHandBasis lm))
            (EngineV2.calculateCurls lm))
          EngineV2.CANONICAL_POSES (none, -1)
        refine ⟨h, hc, ?_, ?_⟩
        · intro e he
          rw [heq]
          exact hall e he
        · rcases hatt with hateq | ⟨e, he, ha, hv⟩
          · exfalso
            rw [heq, hateq] at h
            exact Option.noConfusion h
          · refine ⟨e, he, ?_, ?_⟩
            · rw [heq, ha] at h
              injection h
            · rw [heq]
              exact hv.symm
    · rw [if_neg hc] at h
      exact Option.noConfusion h

/-- Witness for C2 at the all-zero frame: the hybrid matcher scores `A`
at 0.62 > 0.6, so `bestMatch` reports `A`, and the argmax facts follow. -/
theorem C2_acceptance_threshold_witness :
    bestMatch zeroLm = some "A" ∧
    (EngineV2.matchPose zeroLm).1 = some "A" ∧
    0.6 < (EngineV2.matchPose zeroLm).2 ∧
    (∀ e ∈ EngineV2.CANONICAL_POSES,
      EngineV2.scoreOf
        (EngineV2.extractFeatures zeroLm (EngineV2.computeHandBasis zeroLm))
        (EngineV2.calculateCurls zeroLm) e.2 ≤ (EngineV2.matchPose zeroLm).2) ∧
    (∃ e ∈ EngineV2.CANONICAL_POSES, e.1 = "A" ∧
      EngineV2.scoreOf
        (EngineV2.extractFeatures zeroLm (EngineV2.computeHandBasis zeroLm))
        (EngineV2.calculateCurls zeroLm) e.2 = (EngineV2.matchPose zeroLm).2) := by
  have h := C2_acceptance_threshold.2 zeroLm "A" bestMatch_zero
  exact ⟨bestMatch_zero, h.1, h.2.1, h.2.2.1, h.2.2.2⟩

/-! ### C3: range of the reported confidence -/

/-- C3 counterexample: the plain-cosine variant's score is not confined
to [0, 1] — on the valid 21-point frame `negLm` every canonical pose has
a negative average cosine, so the returned best score is negative. -/
theorem C3_counterexample :
    21 ≤ negLm.length ∧ (EngineV1.matchPose negLm).2 < 0 := by
  have h5 : get negLm 5 = ⟨1, 1, 0⟩ := rfl
  have h9 : get negLm 9 = ⟨0, 1, 0⟩ := rfl
  have h17 : get negLm 17 = ⟨-1, 1, 0⟩ := rfl
  have h0 : get negLm 0 = vzero := rfl
  have hy0 : normalize (sub (get negLm 9) (get negLm 0)) = ⟨0, 1, 0⟩ := by
    rw [h9, h0, show sub ⟨0, 1, 0⟩ vzero = ⟨0, 1, 0⟩ from by
      norm_num [sub, vzero]]
    rw [normalize_eval _ 1 (by norm_num) (by norm_num [normSq])]
    norm_num
  have hz : normalize (cross (sub (get negLm 5) (get negLm 0))
      (sub (get negLm 17) (get negLm 0))) = ⟨0, 0, 1⟩ := by
    rw [h5, h17, h0]
    rw [show sub ⟨1, 1, 0⟩ vzero = ⟨1, 1, 0⟩ from by norm_num [sub, vzero],
      show sub ⟨-1, 1, 0⟩ vzero = ⟨-1, 1, 0⟩ from by norm_num [sub, vzero]]
    rw [show cross ⟨1, 1, 0⟩ ⟨-1, 1, 0⟩ = ⟨0, 0, 2⟩ from by norm_num [cross]]
    rw [normalize_eval _ 2 (by norm_num) (by norm_num [normSq])]
    norm_num
  have hx : normalize (cross (normalize (sub (get negLm 9) (get negLm 0)))
      (normalize (cross (sub (get negLm 5) (get negLm 0))
        (sub (get negLm 17) (get negLm 0))))) = ⟨1, 0, 0⟩ := by
    rw [hy0, hz]
    rw [show cross ⟨0, 1, 0⟩ ⟨0, 0, 1⟩ = ⟨1, 0, 0⟩ from by norm_num [cross]]
    rw [normalize_eval _ 1 (by norm_num) (by norm_num [normSq])]
    norm_num
  have hb0 : EngineV1.computeHandBasis negLm =
      (normalize (cross (normalize (sub (get negLm 9) (get negLm 0)))
         (normalize (cross (sub (get negLm 5) (get negLm 0))
           (sub (get negLm 17) (get negLm 0))))),
       cross (normalize (cross (sub (get negLm 5) (get negLm 0))
           (sub (get negLm 17) (get negLm 0))))
         (normalize (cross (normalize (sub (get negLm 9) (get negLm 0)))
           (normalize (cross (sub (get negLm 5) (get negLm 0))
             (sub (get negLm 17) (get negLm 0)))))),
       normalize (cross (sub (get negLm 5) (get negLm 0))
         (sub (get negLm 17) (get negLm 0)))) := rfl
  have hbasis : EngineV1.computeHandBasis negLm
      = (⟨1, 0, 0⟩, ⟨0, 1, 0⟩, ⟨0, 0, 1⟩) := by
    rw [hb0, hx, hz]
    rw [show cross ⟨0, 0, 1⟩ ⟨1, 0, 0⟩ = ⟨0, 1, 0⟩ from by norm_num [cross]]
  have hf0 : EngineV1.featureOf negLm (⟨1, 0, 0⟩, ⟨0, 1, 0⟩, ⟨0, 0, 1⟩) 2 4
      = ⟨3/5, 0, -(4/5)⟩ := by
    simp only [EngineV1.featureOf]
    rw [show sub (get negLm 4) (get negLm 2) = ⟨3/5, 0, -(4/5)⟩ from by
      norm_num [sub, vzero, show get negLm 4 = (⟨3/5, 0, -4/5⟩ : Vec3) from rfl,
        show get negLm 2 = vzero from rfl]]
    rw [normalize_eval _ 1 (by norm_num) (by norm_num [normSq])]
    norm_num [dot]
  have hf1 : EngineV1.featureOf negLm (⟨1, 0, 0⟩, ⟨0, 1, 0⟩, ⟨0, 0, 1⟩) 5 8
      = ⟨4/5, -(3/5), 0⟩ := by
    simp only [EngineV1.featureOf]
    rw [show sub (get negLm 8) (get negLm 5) = ⟨4/5, -(3/5), 0⟩ from by
      norm_num [sub, show get negLm 8 = (⟨9/5, 2/5, 0⟩ : Vec3) from rfl,
        show get negLm 5 = (⟨1, 1, 0⟩ : Vec3) from rfl]]
    rw [normalize_eval _ 1 (by norm_num) (by norm_num [normSq])]
    norm_num [dot]
  have hf2 : EngineV1.featureOf negLm (⟨1, 0, 0⟩, ⟨0, 1, 0⟩, ⟨0, 0, 1⟩) 9 12
      = ⟨0, 3/5, -(4/5)⟩ := by
    simp only [EngineV1.featureOf]
    rw [show sub (get negLm 12) (get negLm 9) = ⟨0, 3/5, -(4/5)⟩ from by
      norm_num [sub, show get negLm 12 = (⟨0, 8/5, -4/5⟩ : Vec3) from rfl,
        show get negLm 9 = (⟨0, 1, 0⟩ : Vec3) from rfl]]
    rw [normalize_eval _ 1 (by norm_num) (by norm_num [normSq])]
    norm_num [dot]
  have hf3 : EngineV1.featureOf negLm (⟨1, 0, 0⟩, ⟨0, 1, 0⟩, ⟨0, 0, 1⟩) 13 16
      = ⟨-(4/5), 3/5, 0⟩ := by
    simp only [EngineV1.featureOf]
    rw [show sub (get negLm 16) (get negLm 13) = ⟨-(4/5), 3/5, 0⟩ from by
      norm_num [sub, vzero,
        show get negLm 16 = (⟨-4/5, 3/5, 0⟩ : Vec3) from rfl,
        show get negLm 13 = vzero from rfl]]
    rw [normalize_eval _ 1 (by norm_num) (by norm_num [normSq])]
    norm_num [dot]
  have hf4 : EngineV1.featureOf negLm (⟨1, 0, 0⟩, ⟨0, 1, 0⟩, ⟨0, 0, 1⟩) 17 20
      = ⟨-(2/3), -(1/3), -(2/3)⟩ := by
    simp only [EngineV1.featureOf]
    rw [show sub (get negLm 20) (get negLm 17) = ⟨-(2/3), -(1/3), -(2/3)⟩ from by
      norm_num [sub,
        show get negLm 20 = (⟨-5/3, 2/3, -2/3⟩ : Vec3) from rfl,
        show get negLm 17 = (⟨-1, 1, 0⟩ : Vec3) from rfl]]
    rw [normalize_eval _ 1 (by norm_num) (by norm_num [normSq])]
    norm_num [dot]
  have hfeats : EngineV1.extractFeatures negLm (EngineV1.computeHandBasis negLm)
      = [⟨3/5, 0, -(4/5)⟩, ⟨4/5, -(3/5), 0⟩, ⟨0, 3/5, -(4/5)⟩,
         ⟨-(4/5), 3/5, 0⟩, ⟨-(2/3), -(1/3), -(2/3)⟩] := by
    rw [hbasis]
    simp only [EngineV1.extractFeatures]
    rw [hf0, hf1, hf2, hf3, hf4]
  have hneg : ∀ e ∈ EngineV1.CANONICAL_POSES,
      EngineV1.calculateSimilarity
        [⟨3/5, 0, -(4/5)⟩, ⟨4/5, -(3/5), 0⟩, ⟨0, 3/5, -(4/5)⟩,
         ⟨-(4/5), 3/5, 0⟩, ⟨-(2/3), -(1/3), -(2/3)⟩] e.2 < 0 := by
    intro e he
    fin_cases he <;> norm_num [EngineV1.calculateSimilarity, dot]
  refine ⟨by norm_num [negLm], ?_⟩
  simp only [EngineV1.matchPose]
  rw [if_neg (show ¬(negLm.length < 21) by norm_num [negLm])]
  rw [hfeats]
  obtain ⟨hacc, hall, hatt⟩ := matchFold_spec
    (fun pose => EngineV1.calculateSimilarity
      [⟨3/5, 0, -(4/5)⟩, ⟨4/5, -(3/5), 0⟩, ⟨0, 3/5, -(4/5)⟩,
       ⟨-(4/5), 3/5, 0⟩, ⟨-(2/3), -(1/3), -(2/3)⟩] pose)
    EngineV1.CANONICAL_POSES (none, -1)
  rcases hatt with heq | ⟨e, he, _, hv⟩
  · rw [heq]
    norm_num
  · rw [hv]
    exact hneg e he

/-- C3 amended: the hybrid scorer's confidence is in [0, 1] for every
input with at least 21 points; the plain-cosine variant's score lies in
[-1, 1] but can be negative (see the counterexample). -/
theorem C3_amended_score_bounds :
    (∀ lm : Landmarks, 21 ≤ lm.length →
      0 ≤ (EngineV2.matchPose lm).2 ∧ (EngineV2.matchPose lm).2 ≤ 1) ∧
    (∀ lm : Landmarks, 21 ≤ lm.length →
      -1 ≤ (EngineV1.matchPose lm).2 ∧ (EngineV1.matchPose lm).2 ≤ 1) := by
  constructor
  · intro lm h21
    have hnot : ¬(lm.length < 21) := not_lt.mpr h21
    have heq : EngineV2.matchPose lm
        = matchFold (EngineV2.scoreOf
            (EngineV2.extractFeatures lm (EngineV2.computeHandBasis lm))
            (EngineV2.calculateCurls lm))
          EngineV2.CANONICAL_POSES (none, -1) := by
      simp only [EngineV2.matchPose]
      rw [if_neg hnot]
    have hrange : ∀ e ∈ EngineV2.CANONICAL_POSES,
        0 ≤ EngineV2.scoreOf
          (EngineV2.extractFeatures lm (EngineV2.computeHandBasis lm))
          (EngineV2.calculateCurls lm) e.2 ∧
        EngineV2.scoreOf
          (EngineV2.extractFeatures lm (EngineV2.computeHandBasis lm))
          (EngineV2.calculateCurls lm) e.2 ≤ 1 := by
      intro e he
      exact scoreOfV2_bound _ _ _
        (simV2_bound _ _ (featuresV2_bounded lm) (targetsV2_bounded e he))
    obtain ⟨hacc, hall, hatt⟩ := matchFold_spec
      (EngineV2.scoreOf
        (EngineV2.extractFeatures lm (EngineV2.computeHandBasis lm))
        (EngineV2.calculateCurls lm))
      EngineV2.CANONICAL_POSES (none, -1)
    have hne : ∃ e0 rest, EngineV2.CANONICAL_POSES = e0 :: rest :=
      ⟨_, _, rfl⟩
    obtain ⟨e0, rest, h0⟩ := hne
    have he0 : e0 ∈ EngineV2.CANONICAL_POSES := by
      rw [h0]
      exact List.mem_cons_self e0 rest
    constructor
    · rw [heq]
      exact le_trans (hrange e0 he0).1 (hall e0 he0)
    · rw [heq]
      rcases hatt with hateq | ⟨e, he, _, hv⟩
      · rw [hateq]
        norm_num
      · rw [hv]
        exact (hrange e he).2
  · intro lm h21
    have hnot : ¬(lm.length < 21) := not_lt.mpr h21
    have heq : EngineV1.matchPose lm
        = matchFold (fun pose => EngineV1.calculateSimilarity
            (EngineV1.extractFeatures lm (EngineV1.computeHandBasis lm)) pose)
          EngineV1.CANONICAL_POSES (none, -1) := by
      simp only [EngineV1.matchPose]
      rw [if_neg hnot]
    have hrange : ∀ e ∈ EngineV1.CANONICAL_POSES,
        -1 ≤ EngineV1.calculateSimilarity
          (EngineV1.extractFeatures lm (EngineV1.computeHandBasis lm)) e.2 ∧
        EngineV1.calculateSimilarity
          (EngineV1.extractFeatures lm (EngineV1.computeHandBasis lm)) e.2
          ≤ 1 := by
      intro e he
      exact simV1_bound _ _ (featuresV1_bounded lm) (targetsV1_bounded e he)
    obtain ⟨hacc, hall, hatt⟩ := matchFold_spec
      (fun pose => EngineV1.calculateSimilarity
        (EngineV1.extractFeatures lm (EngineV1.computeHandBasis lm)) pose)
      EngineV1.CANONICAL_POSES (none, -1)
    constructor
    · rw [heq]
      exact hacc
    · rw [heq]
      rcases hatt with hateq | ⟨e, he, _, hv⟩
      · rw [hateq]
        norm_num
      · rw [hv]
        exact (hrange e he).2

/-- Witness for the amended C3 at the all-zero frame (hybrid score 0.62,
plain score 0, both within their claimed ranges). -/
theorem C3_amended_score_bounds_witness :
    21 ≤ zeroLm.length ∧
    (0 ≤ (EngineV2.matchPose zeroLm).2 ∧ (EngineV2.matchPose zeroLm).2 ≤ 1) ∧
    (-1 ≤ (EngineV1.matchPose zeroLm).2 ∧ (EngineV1.matchPose zeroLm).2 ≤ 1) := by
  have h21 : 21 ≤ zeroLm.length := by simp [zeroLm]
  exact ⟨h21, C3_amended_score_bounds.1 zeroLm h21,
    C3_amended_score_bounds.2 zeroLm h21⟩

/-! ### C4: the sliding-window majority-vote stabilizer -/

/-- C4: after each frame, the label computed as most frequent is indeed a
label of maximal frequency among the non-null entries of the buffer; it
becomes the stable output when its frequency over the buffer length meets
the threshold; otherwise the previous stable label is retained, except
that when the null frequency meets the threshold the stable label is
cleared.  In particular the window `[A,A,A,A,B,A,A,A]` with consensus 0.6
reports `A`. -/
theorem C4_stabilizer_consensus :
    (∀ (N : ℕ) (t : ℚ) (s : Stabilizer.StabState) (raw : Option String)
       (m : String),
      (Stabilizer.countBuffer
        (Stabilizer.pushTrim N s.buffer raw)).mostFrequent = some m →
      ((∀ l, (Stabilizer.pushTrim N s.buffer raw).count (some l)
          ≤ (Stabilizer.pushTrim N s.buffer raw).count (some m)) ∧
       (t ≤ ((Stabilizer.pushTrim N s.buffer raw).count (some m) : ℚ)
            / ((Stabilizer.pushTrim N s.buffer raw).length : ℚ) →
         (Stabilizer.stabStep N t s raw).stable = some m) ∧
       (¬(t ≤ ((Stabilizer.pushTrim N s.buffer raw).count (some m) : ℚ)
            / ((Stabilizer.pushTrim N s.buffer raw).length : ℚ)) →
        ¬(t ≤ ((Stabilizer.pushTrim N s.buffer raw).count none : ℚ)
            / ((Stabilizer.pushTrim N s.buffer raw).length : ℚ)) →
         (Stabilizer.stabStep N t s raw).stable = s.stable) ∧
       (¬(t ≤ ((Stabilizer.pushTrim N s.buffer raw).count (some m) : ℚ)
            / ((Stabilizer.pushTrim N s.buffer raw).length : ℚ)) →
        t ≤ ((Stabilizer.pushTrim N s.buffer raw).count none : ℚ)
            / ((Stabilizer.pushTrim N s.buffer raw).length : ℚ) →
         (Stabilizer.stabStep N t s raw).stable = none))) ∧
    (∀ (N : ℕ) (t : ℚ) (s : Stabilizer.StabState) (raw : Option String),
      (Stabilizer.countBuffer
        (Stabilizer.pushTrim N s.buffer raw)).mostFrequent = none →
      ((∀ l, (Stabilizer.pushTrim N s.buffer raw).count (some l) = 0) ∧
       (t ≤ ((Stabilizer.pushTrim N s.buffer raw).count none : ℚ)
            / ((Stabilizer.pushTrim N s.buffer raw).length : ℚ) →
         (Stabilizer.stabStep N t s raw).stable = none) ∧
       (¬(t ≤ ((Stabilizer.pushTrim N s.buffer raw).count none : ℚ)
            / ((Stabilizer.pushTrim N s.buffer raw).length : ℚ)) →
         (Stabilizer.stabStep N t s raw).stable = s.stable))) ∧
    (Stabilizer.runStab 10 (6/10) ⟨[], none⟩
      [some "A", some "A", some "A", some "A", some "B",
       some "A", some "A", some "A"]).stable = some "A" := by
  refine ⟨?_, ?_, ?_⟩
  · intro N t s raw m hm
    obtain ⟨hc, hn, hmax, hmf, _⟩ :=
      countBuffer_inv (Stabilizer.pushTrim N s.buffer raw)
    have hmc : (Stabilizer.countBuffer
        (Stabilizer.pushTrim N s.buffer raw)).maxCount
        = (Stabilizer.pushTrim N s.buffer raw).count (some m) := by
      rw [← hmf m hm]; exact hc m
    refine ⟨?_, ?_, ?_, ?_⟩
    · intro l
      rw [← hc l, ← hc m, hmf m hm]
      exact hmax l
    · intro ht
      simp only [Stabilizer.stabStep]
      rw [if_pos ⟨by rw [hm]; rfl, by rw [hmc]; exact ht⟩, hm]
    · intro h1 h2
      simp only [Stabilizer.stabStep]
      rw [if_neg (fun hand => h1 (by rw [← hmc]; exact hand.2)),
        if_neg (fun hand => h2 (by rw [← hn]; exact hand))]
    · intro h1 h2
      simp only [Stabilizer.stabStep]
      rw [if_neg (fun hand => h1 (by rw [← hmc]; exact hand.2)),
        if_pos (by rw [hn]; exact h2)]
  · intro N t s raw hm
    obtain ⟨hc, hn, hmax, _, hnone⟩ :=
      countBuffer_inv (Stabilizer.pushTrim N s.buffer raw)
    refine ⟨?_, ?_, ?_⟩
    · intro l
      have h1 := hmax l
      rw [hnone hm] at h1
      rw [← hc l]
      omega
    · intro ht
      simp only [Stabilizer.stabStep]
      rw [if_neg (fun hand => by rw [hm] at hand; exact Bool.noConfusion hand.1),
        if_pos (by rw [hn]; exact ht)]
    · intro ht
      simp only [Stabilizer.stabStep]
      rw [if_neg (fun hand => by rw [hm] at hand; exact Bool.noConfusion hand.1),
        if_neg (fun hand => ht (by rw [← hn]; exact hand))]
  · have e1 : Stabilizer.stabStep 10 (6/10) ⟨[], none⟩ (some "A")
        = ⟨[some "A"], some "A"⟩ := by
      simp [Stabilizer.stabStep, Stabilizer.pushTrim,
        Stabilizer.countBuffer, Stabilizer.countStep]
      norm_num
    have e2 : Stabilizer.stabStep 10 (6/10) ⟨[some "A"], some "A"⟩ (some "A")
        = ⟨[some "A", some "A"], some "A"⟩ := by
      simp [Stabilizer.stabStep, Stabilizer.pushTrim,
        Stabilizer.countBuffer, Stabilizer.countStep]
    have e3 : Stabilizer.stabStep 10 (6/10)
        ⟨[some "A", some "A"], some "A"⟩ (some "A")
        = ⟨[some "A", some "A", some "A"], some "A"⟩ := by
      simp [Stabilizer.stabStep, Stabilizer.pushTrim,
        Stabilizer.countBuffer, Stabilizer.countStep]
    have e4 : Stabilizer.stabStep 10 (6/10)
        ⟨[some "A", some "A", some "A"], some "A"⟩ (some "A")
        = ⟨[some "A", some "A", some "A", some "A"], some "A"⟩ := by
      simp [Stabilizer.stabStep, Stabilizer.pushTrim,
        Stabilizer.countBuffer, Stabilizer.countStep]
    have e5 : Stabilizer.stabStep 10 (6/10)
        ⟨[some "A", some "A", some "A", some "A"], some "A"⟩ (some "B")
        = ⟨[some "A", some "A", some "A", some "A", some "B"], some "A"⟩ := by
      simp [Stabilizer.stabStep, Stabilizer.pushTrim,
        Stabilizer.countBuffer, Stabilizer.countStep]
    have e6 : Stabilizer.stabStep 10 (6/10)
        ⟨[some "A", some "A", some "A", some "A", some "B"], some "A"⟩
        (some "A")
        = ⟨[some "A", some "A", some "A", some "A", some "B", some "A"],
           some "A"⟩ := by
      simp [Stabilizer.stabStep, Stabilizer.pushTrim,
        Stabilizer.countBuffer, Stabilizer.countStep]
    have e7 : Stabilizer.stabStep 10 (6/10)
        ⟨[some "A", some "A", some "A", some "A", some "B", some "A"],
         some "A"⟩ (some "A")
        = ⟨[some "A", some "A", some "A", some "A", some "B", some "A",
            some "A"], some "A"⟩ := by
      simp [Stabilizer.stabStep, Stabilizer.pushTrim,
        Stabilizer.countBuffer, Stabilizer.countStep]
    have e8 : Stabilizer.stabStep 10 (6/10)
        ⟨[some "A", some "A", some "A", some "A", some "B", some "A",
          some "A"], some "A"⟩ (some "A")
        = ⟨[some "A", some "A", some "A", some "A", some "B", some "A",
            some "A", some "A"], some "A"⟩ := by
      simp [Stabilizer.stabStep, Stabilizer.pushTrim,
        Stabilizer.countBuffer, Stabilizer.countStep]
    show (Stabilizer.stabStep 10 (6/10) (Stabilizer.stabStep 10 (6/10)
      (Stabilizer.stabStep 10 (6/10) (Stabilizer.stabStep 10 (6/10)
      (Stabilizer.stabStep 10 (6/10) (Stabilizer.stabStep 10 (6/10)
      (Stabilizer.stabStep 10 (6/10) (Stabilizer.stabStep 10 (6/10)
      ⟨[], none⟩ (some "A")) (some "A")) (some "A")) (some "A"))
      (some "B")) (some "A")) (some "A")) (some "A")).stable = some "A"
    rw [e1, e2, e3, e4, e5, e6, e7, e8]

/-- Witness for C4 at a concrete step: from an empty buffer, one `"A"`
frame gives `"A"` full consensus and promotes it. -/
theorem C4_stabilizer_consensus_witness :
    (Stabilizer.countBuffer (Stabilizer.pushTrim 10
      (Stabilizer.StabState.mk [] none).buffer (some "A"))).mostFrequent
      = some "A" ∧
    (6/10 : ℚ) ≤ ((Stabilizer.pushTrim 10
        (Stabilizer.StabState.mk [] none).buffer (some "A")).count
          (some "A") : ℚ)
      / ((Stabilizer.pushTrim 10
        (Stabilizer.StabState.mk [] none).buffer (some "A")).length : ℚ) ∧
    (Stabilizer.stabStep 10 (6/10) ⟨[], none⟩ (some "A")).stable
      = some "A" := by
  have h1 : (Stabilizer.countBuffer (Stabilizer.pushTrim 10
      (Stabilizer.StabState.mk [] none).buffer (some "A"))).mostFrequent
      = some "A" := by
    norm_num [Stabilizer.pushTrim, Stabilizer.countBuffer, Stabilizer.countStep]
  have h2 : (6/10 : ℚ) ≤ ((Stabilizer.pushTrim 10
        (Stabilizer.StabState.mk [] none).buffer (some "A")).count
          (some "A") : ℚ)
      / ((Stabilizer.pushTrim 10
        (Stabilizer.StabState.mk [] none).buffer (some "A")).length : ℚ) := by
    norm_num [Stabilizer.pushTrim]
  exact ⟨h1, h2,
    (C4_stabilizer_consensus.1 10 (6/10) ⟨[], none⟩ (some "A") "A" h1).2.1 h2⟩

/-! ### C5: hysteresis of the finger/thumb state machines -/

/-- C5 counterexample: the code's hysteresis quantity is the PIP angle,
not the tip/MCP distance ratio.  In `fingerLm` the index ratio is exactly
1.35 (above the claimed entry threshold 1.3, hence far above the claimed
exit threshold 1.1), yet from state `Extended` the state machine leaves
`Extended` (to `Folded`), because the PIP angle is 0. -/
theorem C5_counterexample :
    dist (get fingerLm 0) (get fingerLm 8)
      = 1.35 * dist (get fingerLm 0) (get fingerLm 5) ∧
    GestureEngine.getFingerState fingerLm 5 6 8 FingerState.Extended
      = FingerState.Folded := by
  have h0 : get fingerLm 0 = vzero := rfl
  have h5 : get fingerLm 5 = ⟨1, 0, 0⟩ := rfl
  have h6 : get fingerLm 6 = ⟨2, 0, 0⟩ := rfl
  have h8 : get fingerLm 8 = ⟨27/20, 0, 0⟩ := rfl
  have htip : dist (get fingerLm 0) (get fingerLm 8) = 27/20 := by
    rw [h0, h8, dist]
    rw [show sub vzero ⟨27/20, 0, 0⟩ = ⟨-(27/20), 0, 0⟩ by
      norm_num [sub, vzero]]
    rw [mag_eval _ (27/20) (by norm_num) (by norm_num [normSq])]
  have hmcp : dist (get fingerLm 0) (get fingerLm 5) = 1 := by
    rw [h0, h5, dist]
    rw [show sub vzero ⟨1, 0, 0⟩ = ⟨-1, 0, 0⟩ by norm_num [sub, vzero]]
    rw [mag_eval _ 1 (by norm_num) (by norm_num [normSq])]
  have hangle : GestureEngine.calculateAngle (get fingerLm 5) (get fingerLm 6)
      (get fingerLm 8) = 0 := by
    rw [h5, h6, h8]
    simp only [GestureEngine.calculateAngle]
    rw [show sub ⟨1, 0, 0⟩ ⟨2, 0, 0⟩ = ⟨-1, 0, 0⟩ by norm_num [sub]]
    rw [show sub ⟨27/20, 0, 0⟩ ⟨2, 0, 0⟩ = ⟨-(13/20), 0, 0⟩ by
      norm_num [sub]]
    rw [show dot ⟨-1, 0, 0⟩ ⟨-(13/20), 0, 0⟩ = 13/20 by norm_num [dot]]
    rw [mag_eval ⟨-1, 0, 0⟩ 1 (by norm_num) (by norm_num [normSq])]
    rw [mag_eval ⟨-(13/20), 0, 0⟩ (13/20) (by norm_num)
      (by norm_num [normSq])]
    rw [show (13/20 : ℝ) / (1 * (13/20)) = 1 by norm_num]
    rw [Real.arccos_one]
    ring
  refine ⟨by rw [htip, hmcp]; norm_num, ?_⟩
  rw [GestureEngine.getFingerState, hangle, htip, hmcp]
  simp only [GestureEngine.fingerStateUpdate, eq_self_iff_true, if_true]
  norm_num

/-- C5 amended: hysteresis does hold, but on the PIP angle: entering
`Extended` needs an angle above 155 while staying in it only needs the
angle above 140, so an angle oscillating between the two thresholds keeps
the finger `Extended`; symmetrically the thumb's `Over` state uses a
looser z-offset threshold (0.02) once entered than is needed to enter it
(-0.01). -/
theorem C5_amended_hysteresis :
    (∀ (s : FingerState) (a td md : ℝ), s ≠ FingerState.Extended →
      GestureEngine.fingerStateUpdate s a td md = FingerState.Extended →
      155 < a) ∧
    (∀ a td md : ℝ, 140 < a →
      GestureEngine.fingerStateUpdate FingerState.Extended a td md
        = FingerState.Extended) ∧
    (∀ td1 md1 td2 md2 td3 md3 a1 a2 a3 : ℝ,
      140 < a1 → 140 < a2 → 140 < a3 →
      GestureEngine.runFingerState FingerState.Extended
        [(a1, td1, md1), (a2, td2, md2), (a3, td3, md3)]
        = FingerState.Extended) ∧
    (∀ z ps dr di ta : ℝ, dr < di * 1.3 → dr < ps * 0.9 → z < 0.02 →
      GestureEngine.thumbStateUpdate ThumbState.Over z ps dr di ta
        = ThumbState.Over) ∧
    (∀ z ps dr di ta : ℝ,
      GestureEngine.thumbStateUpdate ThumbState.Side z ps dr di ta
        = ThumbState.Over → z < -0.01) := by
  have stay : ∀ a td md : ℝ, 140 < a →
      GestureEngine.fingerStateUpdate FingerState.Extended a td md
        = FingerState.Extended := by
    intro a td md h
    simp only [GestureEngine.fingerStateUpdate, eq_self_iff_true, if_true]
    rw [if_pos (show a > 140 from h)]
  refine ⟨?_, stay, ?_, ?_, ?_⟩
  · intro s a td md hs h
    simp only [GestureEngine.fingerStateUpdate, hs, if_false] at h
    by_contra hna
    rw [if_neg (show ¬(a > 155) from hna)] at h
    split_ifs at h
  · intro td1 md1 td2 md2 td3 md3 a1 a2 a3 h1 h2 h3
    simp only [GestureEngine.runFingerState, List.foldl]
    rw [stay a1 td1 md1 h1, stay a2 td2 md2 h2, stay a3 td3 md3 h3]
  · intro z ps dr di ta h1 h2 h3
    simp only [GestureEngine.thumbStateUpdate, eq_self_iff_true, if_true]
    rw [if_pos ⟨h1, h2, h3⟩]
  · intro z ps dr di ta h
    simp only [GestureEngine.thumbStateUpdate] at h
    rw [show (if ThumbState.Side = ThumbState.Over then (0.02 : ℝ) else -0.01)
        = -0.01 from if_neg (by simp)] at h
    by_cases hc : dr < di * 1.3 ∧ dr < ps * 0.9 ∧ z < -0.01
    · exact hc.2.2
    · rw [if_neg hc] at h
      split_ifs at h

/-- Witness for the amended C5 at concrete measurements (the analogue of
the claimed oscillation, in the angle domain). -/
theorem C5_amended_hysteresis_witness :
    (140 : ℝ) < 150 ∧
    GestureEngine.fingerStateUpdate FingerState.Extended 150 0 0
      = FingerState.Extended ∧
    GestureEngine.runFingerState FingerState.Extended
      [(160, 0, 0), (150, 0, 0), (160, 0, 0)] = FingerState.Extended :=
  ⟨by norm_num, C5_amended_hysteresis.2.1 150 0 0 (by norm_num),
   C5_amended_hysteresis.2.2.1 0 0 0 0 0 0 160 150 160
     (by norm_num) (by norm_num) (by norm_num)⟩

/-! ### C6: the consecutive-frame debounce -/

/-- C6 counterexample: three consecutive identical raw labels do not
change the displayed letter — the counter starts at 0 on the frame the
label first appears and the display fires at `frameCount >= 3`, i.e. only
on the fourth consecutive frame. -/
theorem C6_counterexample :
    (AppLoop.runApp AppLoop.initState
      [(some "A", 0), (some "A", 0), (some "A", 0)]).detectedLetter
      = none := by
  have h1 : AppLoop.stepApp AppLoop.initState (some "A") 0
      = ⟨some "A", 0, none, 0⟩ := by
    rw [stepApp_new _ "A" 0 (by simp [AppLoop.initState])]
    norm_num [AppLoop.initState, max_def]
  have h2 : AppLoop.stepApp ⟨some "A", 0, none, 0⟩ (some "A") 0
      = ⟨some "A", 1, none, 0⟩ := by
    rw [stepApp_same_small _ "A" 0 rfl (by norm_num)]
    norm_num [max_def]
  have h3 : AppLoop.stepApp ⟨some "A", 1, none, 0⟩ (some "A") 0
      = ⟨some "A", 2, none, 0⟩ := by
    rw [stepApp_same_small _ "A" 0 rfl (by norm_num)]
    norm_num [max_def]
  show (AppLoop.stepApp (AppLoop.stepApp (AppLoop.stepApp AppLoop.initState
      (some "A") 0) (some "A") 0) (some "A") 0).detectedLetter = none
  rw [h1, h2, h3]

/-- C6 amended: a new non-null raw label becomes the displayed letter
exactly when it has been produced for 4 consecutive frames (the counter
resets to 0 on the frame the label changes and the display fires at
`frameCount >= 3`); moreover a null raw detection clears the displayed
letter immediately. -/
theorem C6_amended_debounce :
    (∀ (s : AppLoop.AppState) (l : String) (q : ℚ) (n : ℕ),
      s.lastFrameLetter ≠ some l →
      (AppLoop.runApp s (List.replicate n (some l, q))).detectedLetter
        = if 4 ≤ n then some l else s.detectedLetter) ∧
    (∀ (s : AppLoop.AppState) (q : ℚ),
      (AppLoop.stepApp s none q).detectedLetter = none) := by
  constructor
  · intro s l q n hne
    cases n with
    | zero => simp [AppLoop.runApp]
    | succ m =>
        rw [List.replicate_succ]
        have hrun : AppLoop.runApp s ((some l, q) :: List.replicate m (some l, q))
            = AppLoop.runApp (AppLoop.stepApp s (some l) q)
                (List.replicate m (some l, q)) := rfl
        rw [hrun]
        have hcond : ¬(some l = s.lastFrameLetter) := fun h => hne h.symm
        rw [stepApp_new s l q hcond, runApp_same l q m _ rfl]
        show (if 3 ≤ 0 + m ∧ 1 ≤ m then some l else s.detectedLetter)
          = if 4 ≤ m + 1 then some l else s.detectedLetter
        by_cases hm : 3 ≤ m
        · rw [if_pos ⟨by omega, by omega⟩, if_pos (by omega)]
        · rw [if_neg (by omega), if_neg (by omega)]
  · intro s q
    simp [AppLoop.stepApp]

/-- Witness for the amended C6: from the initial state, four consecutive
`"A"` frames make `"A"` the displayed letter. -/
theorem C6_amended_debounce_witness :
    AppLoop.initState.lastFrameLetter ≠ some "A" ∧
    (AppLoop.runApp AppLoop.initState
      (List.replicate 4 (some "A", 0))).detectedLetter = some "A" := by
  have hne : AppLoop.initState.lastFrameLetter ≠ some "A" := by
    simp [AppLoop.initState]
  have h := C6_amended_debounce.1 AppLoop.initState "A" 0 4 hne
  rw [if_pos (by norm_num)] at h
  exact ⟨hne, h⟩

/-! ### C9: confidence display update -/

/-- C9 counterexample: the displayed accuracy is not the claimed
exponential moving average.  From accuracy 0, a confirmed frame with raw
similarity 0.8 sets the accuracy directly to 80, while the claimed EMA
update `smoothed*(1-0.15) + raw*0.15` would give 12 (percent scale). -/
theorem C9_counterexample :
    (AppLoop.stepApp ⟨some "A", 2, none, 0⟩ (some "A") (4/5)).liveAccuracy
      = 80 ∧
    AppLoop.jsRound ((0 * (1 - 0.15) + (4/5) * 0.15) * 100) = 12 ∧
    (80 : ℤ) ≠ 12 := by
  refine ⟨?_, ?_, by decide⟩
  · rw [stepApp_same_big _ "A" (4/5) rfl (by norm_num)]
    norm_num [AppLoop.jsRound]
  · norm_num [AppLoop.jsRound]

/-- C9 amended: the accuracy update is not an EMA.  On frames with no
accepted detection it decays linearly by 5 per frame with floor 0 (so it
degrades gradually rather than dropping to 0); on a confirmed frame it is
set directly to `round(100 * targetSimilarity)`.  Under a constant raw
similarity of 0.8 and a constant detected letter for 20 frames starting
from 0, the displayed value is monotonically non-decreasing, never
exceeds 80, and ends at 80. -/
theorem C9_amended_accuracy :
    (∀ (s : AppLoop.AppState) (q : ℚ),
      (AppLoop.stepApp s none q).liveAccuracy = max 0 (s.liveAccuracy - 5)) ∧
    (∀ k : ℕ, (AppLoop.accSeq k).liveAccuracy
      ≤ (AppLoop.accSeq (k + 1)).liveAccuracy) ∧
    (∀ k : ℕ, (AppLoop.accSeq k).liveAccuracy ≤ 80) ∧
    (AppLoop.accSeq 20).liveAccuracy = 80 := by
  have hA0 : AppLoop.accSeq 0 = AppLoop.initState := rfl
  have hA1 : AppLoop.accSeq 1 = ⟨some "A", 0, none, 0⟩ := by
    rw [accSeq_succ, hA0, stepApp_new _ "A" (4/5) (by simp [AppLoop.initState])]
    norm_num [AppLoop.initState, max_def]
  have hA2 : AppLoop.accSeq 2 = ⟨some "A", 1, none, 0⟩ := by
    rw [accSeq_succ, hA1, stepApp_same_small _ "A" (4/5) rfl (by norm_num)]
    norm_num [max_def]
  have hA3 : AppLoop.accSeq 3 = ⟨some "A", 2, none, 0⟩ := by
    rw [accSeq_succ, hA2, stepApp_same_small _ "A" (4/5) rfl (by norm_num)]
    norm_num [max_def]
  have hA4 : AppLoop.accSeq 4 = ⟨some "A", 3, some "A", 80⟩ := by
    rw [accSeq_succ, hA3, stepApp_same_big _ "A" (4/5) rfl (by norm_num)]
    norm_num [AppLoop.jsRound]
  have hsteady : ∀ j : ℕ, AppLoop.accSeq (4 + j)
      = ⟨some "A", 3 + j, some "A", 80⟩ := by
    intro j
    induction j with
    | zero => exact hA4
    | succ j ih =>
        have : (4 + (j + 1)) = (4 + j) + 1 := by omega
        rw [this, accSeq_succ, ih,
          stepApp_same_big _ "A" (4/5) rfl (show (3:ℕ) ≤ 3 + j + 1 by omega)]
        norm_num [AppLoop.jsRound]
        omega
  have hval : ∀ k : ℕ, (AppLoop.accSeq k).liveAccuracy
      = if k ≤ 3 then 0 else 80 := by
    intro k
    rcases k with _ | _ | _ | _ | j
    · rw [hA0]; norm_num [AppLoop.initState]
    · rw [hA1]; norm_num
    · rw [hA2]; norm_num
    · rw [hA3]; norm_num
    · rw [show j + 1 + 1 + 1 + 1 = 4 + j by omega, hsteady j]
      rw [if_neg (by omega)]
  refine ⟨?_, ?_, ?_, ?_⟩
  · intro s q
    simp [AppLoop.stepApp]
  · intro k
    rw [hval k, hval (k + 1)]
    split_ifs <;> omega
  · intro k
    rw [hval k]
    split_ifs <;> norm_num
  · rw [hval 20]
    norm_num

end SignStream
